import Mathlib

/-!
Verification of the publish-orchestration core of the obsidian-github-web-publish
plugin, shallowly embedded in Lean 4 from the TypeScript sources:

* `src/publishing/watcher.ts`   — file-move interpreter (FileWatcher) and
  frontmatter validator (FrontmatterValidator),
* `src/github/client.ts`        — retrying GitHub client,
* the content processor and publisher (`ContentProcessor`, `Publisher`).

JavaScript strings are modelled as Lean `String` (code points instead of
UTF-16 units; identical on ASCII inputs, which is all the repository's path
and pattern logic manipulates).  JavaScript numbers appearing here are either
small integers (modelled as `Nat`/`Int`) or, in the backoff computation,
exactly representable values modelled as `ℚ`.  Fallible operations return
`Except`/`Option`.  String primitives (`startsWith`, `split`, `trim`, ...)
are re-implemented over character lists by structural recursion so that every
definition evaluates inside the kernel.
-/

/- ## JavaScript string primitives, modelled over character lists -/

/-- JS `String.prototype.startsWith`. -/
def strStartsWith (s p : String) : Bool := p.data.isPrefixOf s.data

/-- JS `String.prototype.endsWith`. -/
def strEndsWith (s p : String) : Bool := p.data.isSuffixOf s.data

/-- JS `s.slice(n)` (drop the first `n` units). -/
def strDrop (s : String) (n : Nat) : String := String.mk (s.data.drop n)

/-- JS `s.slice(0, s.length - n)` (drop the last `n` units). -/
def strDropRight (s : String) (n : Nat) : String :=
  String.mk (s.data.take (s.data.length - n))

/-- JS single-character `String.prototype.split`. -/
def splitOnChar (sep : Char) : List Char → List (List Char)
  | [] => [[]]
  | c :: rest =>
    let r := splitOnChar sep rest
    if c = sep then [] :: r
    else
      match r with
      | [] => [[c]]
      | h :: t => (c :: h) :: t

/-- Whitespace for JS `\s` / `trim` (the ASCII part, all this code meets). -/
def isJsWs (c : Char) : Bool :=
  c = ' ' || c = '\t' || c = '\n' || c = '\r' || c = '\x0b' || c = '\x0c'

/-- JS `String.prototype.trim`. -/
def jsTrim (s : String) : String :=
  String.mk (((s.data.dropWhile isJsWs).reverse.dropWhile isJsWs).reverse)

/-- JS `String.prototype.toLowerCase` (ASCII part). -/
def jsToLower (s : String) : String := String.mk (s.data.map Char.toLower)

/-- Does `hay` contain `needle` as a contiguous substring (JS `includes`)? -/
def listHasInfix (needle : List Char) : List Char → Bool
  | [] => needle.isEmpty
  | c :: rest => needle.isPrefixOf (c :: rest) || listHasInfix needle rest

/-- JS `hay.includes(needle)`. -/
def strIncludes (hay needle : String) : Bool := listHasInfix needle.data hay.data

/-- Digit run to a number (JS `parseInt` on an all-digit string). -/
def digitsToNat (l : List Char) : Nat :=
  l.foldl (fun n c => n * 10 + (c.toNat - 48)) 0

/- ## File-move watcher (src/publishing/watcher.ts) -/

/-- Key of the SITE_FOLDERS constant: the four tracked subfolder names. -/
inductive SiteFolderKey where
  | UNPUBLISHED
  | READY_TO_PUBLISH_SCHEDULED
  | READY_TO_PUBLISH_NOW
  | PUBLISHED
deriving DecidableEq

/-- Site configuration (src/settings/types.ts), the fields the core uses. -/
structure SiteConfig where
  name : String
  githubRepo : String
  baseBranch : String
  postsPath : String
  assetsPath : String
  scheduledLabel : String
  vaultPath : String
deriving DecidableEq

/-- A vault entry as the watcher sees it.  `extension = none` models a
`TAbstractFile` that is not a `TFile` (the `isTFile` type guard fails). -/
structure TAbstractFile where
  path : String
  basename : String
  extension : Option String
deriving DecidableEq

/-- The `isTFile` type guard of watcher.ts. -/
def isTFile (file : TAbstractFile) : Bool := file.extension.isSome

/-- PublishAction union of watcher.ts. -/
inductive PublishAction where
  | schedulePublish (file : TAbstractFile) (site : SiteConfig)
  | immediatePublish (file : TAbstractFile) (site : SiteConfig)
  | unpublishAct (file : TAbstractFile) (site : SiteConfig)
  | withdraw (file : TAbstractFile) (site : SiteConfig)
  | update (file : TAbstractFile) (site : SiteConfig) (immediate : Bool)
  | none
deriving DecidableEq

/-- `getSiteFolder` of watcher.ts.  The JS code computes
`path.slice(siteVaultPath.length + 1)` when `path` starts with
`siteVaultPath + "/"`, rejects a falsy (empty) relative path, and compares the
first `/`-segment with the four folder names. -/
def getSiteFolder (path : String) (siteVaultPath : String) : Option SiteFolderKey :=
  let relativePath : Option String :=
    if strStartsWith path (siteVaultPath ++ "/") then
      some (strDrop path (siteVaultPath.length + 1))
    else
      Option.none
  match relativePath with
  | Option.none => Option.none
  | some r =>
    if r = "" then Option.none
    else
      let firstSegment : String := String.mk (r.data.takeWhile (fun c => c ≠ '/'))
      if firstSegment = "unpublished" then some .UNPUBLISHED
      else if firstSegment = "ready-to-publish-scheduled" then some .READY_TO_PUBLISH_SCHEDULED
      else if firstSegment = "ready-to-publish-now" then some .READY_TO_PUBLISH_NOW
      else if firstSegment = "published" then some .PUBLISHED
      else Option.none

/-- `findSiteForPath` of watcher.ts: first configured site whose vault path is
a proper prefix of `path` (with a `/` separator) or equals `path`. -/
def findSiteForPath (path : String) (sites : List SiteConfig) : Option SiteConfig :=
  sites.find? (fun site => strStartsWith path (site.vaultPath ++ "/") || path == site.vaultPath)

/-- `FileWatcher.determineAction` of watcher.ts. -/
def determineAction (file : TAbstractFile) (site : SiteConfig)
    (oldFolder newFolder : Option SiteFolderKey) : PublishAction :=
  match oldFolder, newFolder with
  | Option.none, _ => .none
  | _, Option.none => .none
  | some oldF, some newF =>
    if oldF = .PUBLISHED ∧ newF = .READY_TO_PUBLISH_SCHEDULED then
      .update file site false
    else if oldF = .PUBLISHED ∧ newF = .READY_TO_PUBLISH_NOW then
      .update file site true
    else if oldF = .PUBLISHED ∧ newF = .UNPUBLISHED then
      .unpublishAct file site
    else if oldF = .READY_TO_PUBLISH_SCHEDULED ∧ newF = .UNPUBLISHED then
      .withdraw file site
    else if newF = .READY_TO_PUBLISH_SCHEDULED then
      .schedulePublish file site
    else if newF = .READY_TO_PUBLISH_NOW then
      .immediatePublish file site
    else
      .none

/-- `FileWatcher.handleFileMove` of watcher.ts, with the plugin's configured
sites passed explicitly. -/
def handleFileMove (file : TAbstractFile) (oldPath : String)
    (sites : List SiteConfig) : PublishAction :=
  match file.extension with
  | some "md" =>
    if sites.length = 0 then .none
    else
      match findSiteForPath oldPath sites with
      | Option.none => .none
      | some oldSite =>
        let newSite := findSiteForPath file.path sites
        let oldFolder := getSiteFolder oldPath oldSite.vaultPath
        let newFolder :=
          match newSite with
          | some s => getSiteFolder file.path s.vaultPath
          | Option.none => Option.none
        determineAction file oldSite oldFolder newFolder
  | _ => .none

/-- Claim C1: sync-protection invariant — if the old path of a move does not
lie inside any configured site (so `findSiteForPath` cannot resolve a site for
it), `handleFileMove` returns the `none` intent, whatever the new path is. -/
theorem c1_sync_protection (file : TAbstractFile) (oldPath : String)
    (sites : List SiteConfig)
    (h : findSiteForPath oldPath sites = Option.none) :
    handleFileMove file oldPath sites = PublishAction.none := by
  unfold handleFileMove
  split
  · split
    · rfl
    · rw [h]
  · rfl

/-- Witness for C1 at a concrete move: the old path lies outside the single
configured site, and the intent is `none`. -/
theorem c1_sync_protection_witness :
    handleFileMove
      ⟨"_www/sites/test-site/published/post.md", "post", some "md"⟩
      "some/random/path/post.md"
      [⟨"Test Site", "user/repo", "main", "_posts", "assets",
        "ready-to-publish", "_www/sites/test-site"⟩] = PublishAction.none :=
  c1_sync_protection _ _ _ (by decide)

/-- Claim C5 as stated is false: when the old path lies inside the configured
site but in none of the four tracked subfolders (classified `none`), a move
into `ready-to-publish-scheduled` yields the `none` intent, not
`schedule-publish` — `determineAction` returns `none` whenever either folder
classification is `none`.  Concrete input: old path `site/drafts/a.md`
(inside the site, untracked subfolder), new path
`site/ready-to-publish-scheduled/a.md`. -/
theorem c5_counterexample :
    handleFileMove
      ⟨"site/ready-to-publish-scheduled/a.md", "a", some "md"⟩
      "site/drafts/a.md"
      [⟨"S", "u/r", "main", "_posts", "assets", "lbl", "site"⟩] = PublishAction.none ∧
    PublishAction.none ≠
      PublishAction.schedulePublish
        ⟨"site/ready-to-publish-scheduled/a.md", "a", some "md"⟩
        ⟨"S", "u/r", "main", "_posts", "assets", "lbl", "site"⟩ := by
  constructor
  · decide
  · decide

/-- Claim C5, amended: for a markdown move whose old path resolves to a site
and whose new path is classified `scheduled-queue`, the intent is
`update(immediate := false)` when the old path is classified `published`,
`schedule-publish` when the old path is classified into any of the other
three tracked subfolders, and `none` when the old path is inside the site but
in no tracked subfolder. -/
theorem c5_scheduled_queue_transitions (file : TAbstractFile) (oldPath : String)
    (sites : List SiteConfig) (oldSite newSite : SiteConfig)
    (hmd : file.extension = some "md")
    (hold : findSiteForPath oldPath sites = some oldSite)
    (hnew : findSiteForPath file.path sites = some newSite)
    (hsched : getSiteFolder file.path newSite.vaultPath =
      some SiteFolderKey.READY_TO_PUBLISH_SCHEDULED) :
    handleFileMove file oldPath sites =
      match getSiteFolder oldPath oldSite.vaultPath with
      | some SiteFolderKey.PUBLISHED => PublishAction.update file oldSite false
      | some _ => PublishAction.schedulePublish file oldSite
      | Option.none => PublishAction.none := by
  have hne : sites.length ≠ 0 := by
    intro hlen
    rw [List.length_eq_zero] at hlen
    subst hlen
    simp [findSiteForPath] at hold
  unfold handleFileMove
  rw [hmd]
  simp only [hne, if_false, hold, hnew, hsched]
  match hof : getSiteFolder oldPath oldSite.vaultPath with
  | Option.none => rfl
  | some SiteFolderKey.PUBLISHED => rfl
  | some SiteFolderKey.UNPUBLISHED => rfl
  | some SiteFolderKey.READY_TO_PUBLISH_SCHEDULED => rfl
  | some SiteFolderKey.READY_TO_PUBLISH_NOW => rfl

/-- Witness for the amended C5 at a concrete move `unpublished →
ready-to-publish-scheduled`, which yields `schedule-publish`. -/
theorem c5_scheduled_queue_transitions_witness :
    handleFileMove
      ⟨"site/ready-to-publish-scheduled/a.md", "a", some "md"⟩
      "site/unpublished/a.md"
      [⟨"S", "u/r", "main", "_posts", "assets", "lbl", "site"⟩] =
      PublishAction.schedulePublish
        ⟨"site/ready-to-publish-scheduled/a.md", "a", some "md"⟩
        ⟨"S", "u/r", "main", "_posts", "assets", "lbl", "site"⟩ := by
  have h := c5_scheduled_queue_transitions
    ⟨"site/ready-to-publish-scheduled/a.md", "a", some "md"⟩
    "site/unpublished/a.md"
    [⟨"S", "u/r", "main", "_posts", "assets", "lbl", "site"⟩]
    ⟨"S", "u/r", "main", "_posts", "assets", "lbl", "site"⟩
    ⟨"S", "u/r", "main", "_posts", "assets", "lbl", "site"⟩
    rfl (by decide) (by decide) (by decide)
  rw [h]
  decide

/- ## Frontmatter validator (src/publishing/watcher.ts, FrontmatterValidator) -/

/-- Values the restricted YAML parser can produce (strings, booleans,
integers, decimals, arrays; `YYYY-MM-DD` dates are kept as strings).  A
decimal is kept as its literal text: the validator only inspects its type. -/
inductive YamlValue where
  | vstr (s : String)
  | vbool (b : Bool)
  | vint (n : Int)
  | vfloat (lit : String)
  | varr (items : List YamlValue)

/-- Is the value the empty string (JS `value === ''`)? -/
def isEmptyStrVal : YamlValue → Bool
  | .vstr s => s = ""
  | _ => false

/-- A single-quote character, used by `parseValue` for quoted strings. -/
def singleQuote : String := String.mk [Char.ofNat 39]

/-- Regex `^-?\d+$`. -/
def isIntLit (l : List Char) : Bool :=
  let core := match l with
    | '-' :: t => t
    | t => t
  !core.isEmpty && core.all Char.isDigit

/-- Regex `^-?\d+\.\d+$`. -/
def isFloatLit (l : List Char) : Bool :=
  let core := match l with
    | '-' :: t => t
    | t => t
  match splitOnChar '.' core with
  | [a, b] => !a.isEmpty && a.all Char.isDigit && !b.isEmpty && b.all Char.isDigit
  | _ => false

/-- Regex `^\d{4}-\d{2}-\d{2}$`. -/
def isDateLit (l : List Char) : Bool :=
  match l with
  | [a, b, c, d, h1, e, f, h2, g, h] =>
    a.isDigit && b.isDigit && c.isDigit && d.isDigit && h1 = '-' &&
    e.isDigit && f.isDigit && h2 = '-' && g.isDigit && h.isDigit
  | _ => false

/-- JS `parseInt` on a string matching `^-?\d+$`. -/
def parseIntLit (l : List Char) : Int :=
  match l with
  | '-' :: t => - (digitsToNat t : Int)
  | t => (digitsToNat t : Int)

/-- `FrontmatterValidator.parseValue`: quoted strings, booleans, integers,
decimals, `YYYY-MM-DD` dates (kept as strings), else the raw string. -/
def parseValue (value : String) : YamlValue :=
  let l := value.data
  if (strStartsWith value "\"" && strEndsWith value "\"") ||
     (strStartsWith value singleQuote && strEndsWith value singleQuote) then
    .vstr (String.mk ((l.drop 1).take (l.length - 2)))
  else if value = "true" then .vbool true
  else if value = "false" then .vbool false
  else if isIntLit l then .vint (parseIntLit l)
  else if isFloatLit l then .vfloat value
  else if isDateLit l then .vstr value
  else .vstr value

/-- The character class `\w` of the key regex. -/
def isWordChar (c : Char) : Bool := c.isAlpha || c.isDigit || c = '_'

/-- JS-object assignment `result[key] = v`: overwrite in place, else append. -/
def setYamlKey : List (String × YamlValue) → String → YamlValue → List (String × YamlValue)
  | [], k, v => [(k, v)]
  | (k0, v0) :: rest, k, v =>
    if k0 = k then (k0, v) :: rest else (k0, v0) :: setYamlKey rest k v

/-- JS-object lookup `frontmatter[field]`. -/
def yamlLookup (fm : List (String × YamlValue)) (k : String) : Option YamlValue :=
  (fm.find? (fun p => p.1 = k)).map (fun p => p.2)

/-- Mutable state of the `parseYaml` line loop. -/
structure YamlState where
  result : List (String × YamlValue)
  currentKey : Option String
  currentArray : Option (List YamlValue)

/-- One iteration of the `parseYaml` loop over a line. -/
def parseYamlLine (st : YamlState) (line : String) : YamlState :=
  let l := line.data
  let trimmed := jsTrim line
  if trimmed = "" || strStartsWith trimmed "#" then st
  else
    let afterWs := l.dropWhile isJsWs
    let isArrayItem : Bool :=
      match afterWs with
      | '-' :: c :: _ => isJsWs c
      | _ => false
    if isArrayItem && st.currentKey.isSome && st.currentArray.isSome then
      let valueStr := jsTrim (String.mk ((afterWs.drop 1).dropWhile isJsWs))
      { st with currentArray := some (st.currentArray.getD [] ++ [parseValue valueStr]) }
    else
      let keyChars := l.takeWhile isWordChar
      match keyChars, l.drop keyChars.length with
      | _ :: _, ':' :: restLine =>
        let st1 : YamlState :=
          match st.currentKey, st.currentArray with
          | some k, some arr =>
            { result := setYamlKey st.result k (.varr arr),
              currentKey := st.currentKey, currentArray := Option.none }
          | _, _ => st
        let key := String.mk keyChars
        let value := jsTrim (String.mk restLine)
        if value = "" || value = "[]" then
          { st1 with currentKey := some key, currentArray := some [] }
        else if strStartsWith value "[" && strEndsWith value "]" then
          let inner := (value.data.drop 1).take (value.data.length - 2)
          let items := (splitOnChar ',' inner).map
            (fun seg => parseValue (jsTrim (String.mk seg)))
          { st1 with result := setYamlKey st1.result key (.varr items),
                     currentKey := Option.none }
        else
          { st1 with result := setYamlKey st1.result key (parseValue value),
                     currentKey := Option.none }
      | _, _ => st

/-- `FrontmatterValidator.parseYaml`.  Total by construction: every JS
operation the source uses (split, trim, regex tests, parseInt, parseFloat)
is non-throwing, so the embedding is a plain function with no failure path. -/
def parseYaml (yaml : String) : List (String × YamlValue) :=
  let lines := (splitOnChar '\n' yaml.data).map String.mk
  let final := lines.foldl parseYamlLine ⟨[], Option.none, Option.none⟩
  match final.currentKey, final.currentArray with
  | some k, some arr => setYamlKey final.result k (.varr arr)
  | _, _ => final.result

/-- Scan for the earliest frontmatter terminator (the lazy body of the
source regex ends at the first `\r\n---` or `\n---`); returns the body
before it. -/
def fmFindBody (acc : List Char) : List Char → Option (List Char)
  | [] => Option.none
  | c :: rest =>
    if ['\r', '\n', '-', '-', '-'].isPrefixOf (c :: rest) then some acc.reverse
    else if ['\n', '-', '-', '-'].isPrefixOf (c :: rest) then some acc.reverse
    else fmFindBody (c :: acc) rest

/-- `FrontmatterValidator.parseFrontmatter`: the anchored frontmatter regex.
An absent or empty (falsy) body yields `none`. -/
def parseFrontmatter (content : String) : Option (List (String × YamlValue)) :=
  let body : Option (List Char) :=
    match content.data with
    | '-' :: '-' :: '-' :: '\r' :: '\n' :: rest => fmFindBody [] rest
    | '-' :: '-' :: '-' :: '\n' :: rest => fmFindBody [] rest
    | _ => Option.none
  match body with
  | Option.none => Option.none
  | some b => if b.isEmpty then Option.none else some (parseYaml (String.mk b))

/-- Field types of the validation rules. -/
inductive FieldType where
  | ftString
  | ftBoolean
  | ftArray
  | ftDate
  | ftNumber
deriving DecidableEq

/-- The JS name of a field type (used in error messages). -/
def fieldTypeName : FieldType → String
  | .ftString => "string"
  | .ftBoolean => "boolean"
  | .ftArray => "array"
  | .ftDate => "date"
  | .ftNumber => "number"

/-- A validation rule.  A `RegExp` pattern is modelled as a predicate. -/
structure ValidationRule where
  field : String
  required : Bool
  type : Option FieldType
  maxLength : Option Nat
  values : Option (List String)
  pattern : Option (String → Bool)

/-- A validation error. -/
structure ValidationError where
  field : String
  message : String
deriving DecidableEq

/-- A validation warning (does not block publishing). -/
structure ValidationWarning where
  field : String
  message : String
deriving DecidableEq

/-- Result of `FrontmatterValidator.validate`. -/
structure ValidationResult where
  valid : Bool
  errors : List ValidationError
  warnings : List ValidationWarning
  frontmatter : Option (List (String × YamlValue))

/-- `FrontmatterValidator.validateType`.  The source also accepts a `Date`
object for `date`, but the parser never produces one. -/
def validateType (v : YamlValue) (t : FieldType) : Bool :=
  match t with
  | .ftString => match v with | .vstr _ => true | _ => false
  | .ftBoolean => match v with | .vbool _ => true | _ => false
  | .ftNumber => match v with | .vint _ => true | .vfloat _ => true | _ => false
  | .ftArray => match v with | .varr _ => true | _ => false
  | .ftDate =>
    match v with
    | .vstr s =>
      match s.data with
      | a :: b :: c :: d :: h1 :: e :: f :: h2 :: g :: h :: _ =>
        a.isDigit && b.isDigit && c.isDigit && d.isDigit && h1 = '-' &&
        e.isDigit && f.isDigit && h2 = '-' && g.isDigit && h.isDigit
      | _ => false
    | _ => false

/-- The string/length/values/pattern checks that run after the type check. -/
def lateChecks (rule : ValidationRule) (v : YamlValue) :
    List ValidationError × List ValidationWarning :=
  let lenErr : List ValidationError :=
    match rule.maxLength, v with
    | some m, .vstr s =>
      if m ≠ 0 && s.length > m then
        [⟨rule.field,
          rule.field ++ " exceeds maximum length of " ++ toString m ++ " characters"⟩]
      else []
    | _, _ => []
  let valWarn : List ValidationWarning :=
    match rule.values, v with
    | some vs, .vstr s =>
      if !vs.contains s then
        [⟨rule.field,
          rule.field ++ " has unexpected value \"" ++ s ++
            "\". Expected one of: " ++ String.intercalate ", " vs⟩]
      else []
    | _, _ => []
  let patErr : List ValidationError :=
    match rule.pattern, v with
    | some p, .vstr s =>
      if !p s then
        [⟨rule.field, rule.field ++ " does not match required pattern"⟩]
      else []
    | _, _ => []
  (lenErr ++ patErr, valWarn)

/-- Findings of the `validate` loop body for one rule. -/
def ruleFindings (fm : List (String × YamlValue)) (rule : ValidationRule) :
    List ValidationError × List ValidationWarning :=
  match yamlLookup fm rule.field with
  | Option.none =>
    if rule.required then
      ([⟨rule.field, "Missing required field: " ++ rule.field⟩], [])
    else ([], [])
  | some v =>
    if rule.required && isEmptyStrVal v then
      ([⟨rule.field, "Missing required field: " ++ rule.field⟩], [])
    else
      match rule.type with
      | some t =>
        if !validateType v t then
          ([⟨rule.field,
             "Invalid type for " ++ rule.field ++ ": expected " ++ fieldTypeName t⟩],
           [])
        else lateChecks rule v
      | Option.none => lateChecks rule v

/-- The `validate` loop over all rules, keeping source order of findings. -/
def collectFindings (fm : List (String × YamlValue)) :
    List ValidationRule → List ValidationError × List ValidationWarning
  | [] => ([], [])
  | r :: rs =>
    let cur := ruleFindings fm r
    let rest := collectFindings fm rs
    (cur.1 ++ rest.1, cur.2 ++ rest.2)

/-- The DEFAULT_RULES list of watcher.ts. -/
def DEFAULT_RULES : List ValidationRule :=
  [⟨"title", true, some .ftString, some 200, Option.none, Option.none⟩,
   ⟨"layout", false, some .ftString, Option.none,
     some ["post", "page", "default"], Option.none⟩,
   ⟨"description", false, some .ftString, some 500, Option.none, Option.none⟩,
   ⟨"categories", false, some .ftArray, Option.none, Option.none, Option.none⟩,
   ⟨"tags", false, some .ftArray, Option.none, Option.none, Option.none⟩,
   ⟨"date", false, some .ftDate, Option.none, Option.none, Option.none⟩,
   ⟨"hide", false, some .ftBoolean, Option.none, Option.none, Option.none⟩,
   ⟨"toc", false, some .ftBoolean, Option.none, Option.none, Option.none⟩,
   ⟨"image", false, some .ftString, Option.none, Option.none, Option.none⟩,
   ⟨"author", false, some .ftString, Option.none, Option.none, Option.none⟩,
   ⟨"comments", false, some .ftBoolean, Option.none, Option.none, Option.none⟩]

/-- `FrontmatterValidator.validate` on the already-read file content.  The
source wraps `parseFrontmatter` in a try/catch whose catch reports a
`_yaml` error; the embedded parser is a total function (see `parseYaml`), so
no catch branch exists here. -/
def validateContent (content : String) (rules : List ValidationRule) :
    ValidationResult :=
  match parseFrontmatter content with
  | Option.none =>
    ⟨false,
     [⟨"_frontmatter", "No frontmatter found. Add --- at the start of your file."⟩],
     [], Option.none⟩
  | some fm =>
    let found := collectFindings fm rules
    ⟨found.1.length = 0, found.1, found.2, some fm⟩

/-- Every error produced by the post-type checks carries the rule's field. -/
theorem lateChecks_field (rule : ValidationRule) (v : YamlValue)
    (e : ValidationError) (he : e ∈ (lateChecks rule v).1) : e.field = rule.field := by
  unfold lateChecks at he
  simp only [List.mem_append] at he
  rcases he with he | he
  · split at he
    · split at he <;> simp_all
    · simp_all
  · split at he
    · split at he <;> simp_all
    · simp_all

/-- Every error produced for a rule carries that rule's field name. -/
theorem ruleFindings_field (fm : List (String × YamlValue))
    (rule : ValidationRule) (e : ValidationError)
    (he : e ∈ (ruleFindings fm rule).1) : e.field = rule.field := by
  unfold ruleFindings at he
  split at he
  · split at he <;> simp_all
  · split at he
    · simp_all
    · split at he
      · split at he
        · simp_all
        · exact lateChecks_field _ _ _ he
      · exact lateChecks_field _ _ _ he

/-- Every error from the rule loop carries one of the rules' field names. -/
theorem collectFindings_field (fm : List (String × YamlValue))
    (rules : List ValidationRule) (e : ValidationError)
    (he : e ∈ (collectFindings fm rules).1) :
    e.field ∈ rules.map (fun r => r.field) := by
  induction rules with
  | nil => simp [collectFindings] at he
  | cons r rs ih =>
    simp only [collectFindings, List.mem_append] at he
    simp only [List.map_cons, List.mem_cons]
    rcases he with he | he
    · exact Or.inl (ruleFindings_field fm r e he)
    · exact Or.inr (ih he)

/-- Claim C10: the frontmatter parser is total, so validation never reports a
`_yaml`-tagged error.  (1) Every error field is either the `_frontmatter` tag
or the field of one of the supplied rules; (2) with the default rules no
error is ever tagged `_yaml`; (3) the only parse-level failure is the single
`_frontmatter` error produced when the leading `---` block is missing (or
empty).  Totality itself is witnessed by `parseYaml` and `parseFrontmatter`
being plain Lean functions: each JS operation they model is non-throwing. -/
theorem c10_no_yaml_error :
    (∀ (content : String) (rules : List ValidationRule) (e : ValidationError),
        e ∈ (validateContent content rules).errors →
        e.field = "_frontmatter" ∨ e.field ∈ rules.map (fun r => r.field)) ∧
    (∀ (content : String) (e : ValidationError),
        e ∈ (validateContent content DEFAULT_RULES).errors → e.field ≠ "_yaml") ∧
    (∀ (content : String) (rules : List ValidationRule),
        parseFrontmatter content = Option.none →
        (validateContent content rules).errors =
          [⟨"_frontmatter",
            "No frontmatter found. Add --- at the start of your file."⟩]) := by
  have main : ∀ (content : String) (rules : List ValidationRule) (e : ValidationError),
      e ∈ (validateContent content rules).errors →
      e.field = "_frontmatter" ∨ e.field ∈ rules.map (fun r => r.field) := by
    intro content rules e he
    unfold validateContent at he
    split at he
    · simp_all
    · exact Or.inr (collectFindings_field _ rules e he)
  have noYaml : "_yaml" ∉ DEFAULT_RULES.map (fun r => r.field) := by decide
  refine ⟨main, ?_, ?_⟩
  · intro content e he heq
    rcases main content DEFAULT_RULES e he with h | h
    · rw [heq] at h
      exact absurd h (by decide)
    · rw [heq] at h
      exact noYaml h
  · intro content rules hp
    unfold validateContent
    rw [hp]

/-- Witness for C10: a document with no leading `---` block yields exactly
the single `_frontmatter` error, and the missing-`title` error produced for
a real frontmatter block is not `_yaml`-tagged. -/
theorem c10_no_yaml_error_witness :
    (validateContent "just a body" DEFAULT_RULES).errors =
      [⟨"_frontmatter", "No frontmatter found. Add --- at the start of your file."⟩] ∧
    (⟨"title", "Missing required field: title"⟩ : ValidationError).field ≠ "_yaml" := by
  refine ⟨c10_no_yaml_error.2.2 "just a body" DEFAULT_RULES rfl, ?_⟩
  exact c10_no_yaml_error.2.1 "---\nlayout: post\n---\nbody"
    ⟨"title", "Missing required field: title"⟩ (by decide)

/- ## Content processor (content-processor.ts) -/

/-- Options of the ContentProcessor.  The optional `assetPrefix` is a string
whose empty value models both `undefined` and the falsy empty prefix. -/
structure ContentProcessorOptions where
  linkBasePath : String
  assetsBasePath : String
  wikiLinkStyleText : Bool
  assetPrefixOpt : String
deriving DecidableEq

/-- DEFAULT_OPTIONS of content-processor.ts (`wikiLinkStyle: 'text'`). -/
def DEFAULT_OPTIONS : ContentProcessorOptions :=
  ⟨"/", "/assets/images/", true, ""⟩

/-- An asset reference recorded by the image-embed pass. -/
structure AssetReference where
  originalRef : String
  filename : String
  targetPath : String
deriving DecidableEq

/-- Result of `ContentProcessor.process`. -/
structure ProcessedContent where
  content : String
  assets : List AssetReference
deriving DecidableEq

/-- JS `lastIndexOf('.')`, −1 when absent. -/
def lastDotIndex (l : List Char) : Int :=
  ((l.enum.filter (fun p => p.2 = '.')).map (fun p => (p.1 : Int))).foldl max (-1)

/-- `getBasename` of content-processor.ts: filename without its extension
(only when the last dot is at a positive index). -/
def getBasename (filename : String) : String :=
  let ld := lastDotIndex filename.data
  if ld > 0 then String.mk (filename.data.take ld.toNat) else filename

/-- `[a-z0-9]` after lowercasing. -/
def isSlugChar (c : Char) : Bool := ('a' ≤ c && c ≤ 'z') || c.isDigit

/-- Each character outside `[a-z0-9]` becomes a dash. -/
def mapNonAlnumToDash (l : List Char) : List Char :=
  l.map (fun c => if isSlugChar c then c else '-')

/-- Collapse consecutive dashes to one (so that the per-character mapping
above equals the source's `replace(/[^a-z0-9]+/g, '-')` on runs). -/
def squashDashes : List Char → List Char
  | [] => []
  | [c] => [c]
  | c :: d :: rest =>
    if c = '-' && d = '-' then squashDashes (d :: rest)
    else c :: squashDashes (d :: rest)

/-- `replace(/^-|-$/g, '')`: strip one leading and one trailing dash. -/
def trimDashEnds (l : List Char) : List Char :=
  let l1 := match l with
    | '-' :: t => t
    | t => t
  (match l1.reverse with
    | '-' :: t => t
    | t => t).reverse

/-- `slugify` of content-processor.ts: lowercase, collapse non-alphanumeric
runs to single dashes, strip edge dashes. -/
def cpSlugify (text : String) : String :=
  String.mk (trimDashEnds (squashDashes (mapNonAlnumToDash (jsToLower text).data)))

/-- `slugify` of publisher.ts: additionally strips a trailing `.md` first. -/
def slugify (filename : String) : String :=
  cpSlugify (if strEndsWith filename ".md" then strDropRight filename 3 else filename)

/-- `replace(/^\//,'').replace(/\/$/,'')` applied to the assets base path. -/
def stripOneSlashEnds (s : String) : String :=
  let s1 := if strStartsWith s "/" then strDrop s 1 else s
  if strEndsWith s1 "/" then strDropRight s1 1 else s1

/-- The last `/`-segment of a path (JS `split('/').pop()`). -/
def lastSegment (s : String) : String :=
  String.mk ((splitOnChar '/' s.data).getLastD s.data)

/-- The unique (possibly prefixed) uploaded filename of an asset. -/
def uniqueAssetName (opts : ContentProcessorOptions) (filenameOnly : String) : String :=
  if opts.assetPrefixOpt ≠ "" then opts.assetPrefixOpt ++ "-" ++ filenameOnly
  else filenameOnly

/-- The target upload path of an asset. -/
def assetTargetPath (opts : ContentProcessorOptions) (filenameOnly : String) : String :=
  stripOneSlashEnds opts.assetsBasePath ++ "/" ++ uniqueAssetName opts filenameOnly

/-- The replacement callback of `processImageEmbeds`: given the matched text,
the inner reference and an optional caption, produce the standard markdown
image and the recorded `AssetReference`. -/
def imageEmbedReplacement (opts : ContentProcessorOptions)
    (matched filename : String) (alt : Option String) : String × AssetReference :=
  let cleanFilename := jsTrim filename
  let filenameOnly := lastSegment cleanFilename
  let altText :=
    match alt with
    | some a => let t := jsTrim a; if t = "" then getBasename filenameOnly else t
    | Option.none => getBasename filenameOnly
  let targetPath := assetTargetPath opts filenameOnly
  ("![" ++ altText ++ "](/" ++ targetPath ++ ")",
   ⟨matched, cleanFilename, targetPath⟩)

/-- `[^\]|]` of the image/wiki regexes. -/
def notBracketPipe (c : Char) : Bool := c ≠ ']' && c ≠ '|'

/-- `[^\]]` of the caption groups. -/
def notBracket (c : Char) : Bool := c ≠ ']'

/-- Attempt the image-embed regex at the head of `cs`; maximal-munch on the
two character classes coincides with the regex backtracking semantics because
neither class can absorb the delimiters. -/
def tryImageEmbed (cs : List Char) :
    Option (List Char × String × Option String × List Char) :=
  match cs with
  | '!' :: '[' :: '[' :: rest =>
    let fname := rest.takeWhile notBracketPipe
    if fname.isEmpty then Option.none
    else
      match rest.drop fname.length with
      | ']' :: ']' :: rem =>
        some ('!' :: '[' :: '[' :: (fname ++ [']', ']']), String.mk fname,
              Option.none, rem)
      | '|' :: afterPipe =>
        let altC := afterPipe.takeWhile notBracket
        if altC.isEmpty then Option.none
        else
          match afterPipe.drop altC.length with
          | ']' :: ']' :: rem =>
            some ('!' :: '[' :: '[' :: (fname ++ '|' :: (altC ++ [']', ']'])),
                  String.mk fname, some (String.mk altC), rem)
          | _ => Option.none
      | _ => Option.none
  | _ => Option.none

/-- A successful image-embed match consumes at least one character. -/
theorem tryImageEmbed_rem_length {cs m rem : List Char} {f : String}
    {a : Option String} (h : tryImageEmbed cs = some (m, f, a, rem)) :
    rem.length < cs.length := by
  unfold tryImageEmbed at h
  split at h
  case h_2 => exact absurd h (by simp)
  case h_1 _ rest =>
    simp only [] at h
    split at h
    · exact absurd h (by simp)
    · split at h
      case h_1 _ rem0 heq =>
        have hlen : rem0.length + 2 ≤ rest.length := by
          have := congrArg List.length heq
          simp [List.length_drop] at this
          omega
        simp only [Option.some.injEq, Prod.mk.injEq] at h
        obtain ⟨-, -, -, hr⟩ := h
        subst hr
        simp only [List.length_cons]
        omega
      case h_2 _ afterPipe heq =>
        have hlen1 : afterPipe.length + 1 ≤ rest.length := by
          have := congrArg List.length heq
          simp [List.length_drop] at this
          omega
        split at h
        · exact absurd h (by simp)
        · split at h
          case h_1 _ rem0 heq2 =>
            have hlen2 : rem0.length + 2 ≤ afterPipe.length := by
              have := congrArg List.length heq2
              simp [List.length_drop] at this
              omega
            simp only [Option.some.injEq, Prod.mk.injEq] at h
            obtain ⟨-, -, -, hr⟩ := h
            subst hr
            simp only [List.length_cons]
            omega
          case h_2 => exact absurd h (by simp)
      case h_3 => exact absurd h (by simp)

/-- The global-replace scan of `processImageEmbeds`: try the regex at every
position, emit replacements, and resume after each whole match.  The scan is
bounded by a character budget; by `tryImageEmbed_rem_length` every step
consumes at least one character, so a budget of the input length never runs
out and the bounded scan equals the unbounded source loop. -/
def scanImageEmbedsFuel (opts : ContentProcessorOptions) :
    Nat → List Char → List Char × List AssetReference
  | 0, _ => ([], [])
  | _ + 1, [] => ([], [])
  | fuel + 1, c :: rest =>
    match tryImageEmbed (c :: rest) with
    | some (matched, fname, alt, rem) =>
      let tailRes := scanImageEmbedsFuel opts fuel rem
      let repl := imageEmbedReplacement opts (String.mk matched) fname alt
      (repl.1.data ++ tailRes.1, repl.2 :: tailRes.2)
    | Option.none =>
      let tailRes := scanImageEmbedsFuel opts fuel rest
      (c :: tailRes.1, tailRes.2)

/-- The image scan with its exact character budget. -/
def scanImageEmbeds (opts : ContentProcessorOptions)
    (cs : List Char) : List Char × List AssetReference :=
  scanImageEmbedsFuel opts cs.length cs

/-- `ContentProcessor.processImageEmbeds`. -/
def processImageEmbeds (opts : ContentProcessorOptions) (content : String) :
    String × List AssetReference :=
  let res := scanImageEmbeds opts content.data
  (String.mk res.1, res.2)

/-- Attempt the wiki-link regex body at the head of `cs` (the `(?<!!)`
lookbehind is checked by the caller). -/
def tryWikiLink (cs : List Char) :
    Option (String × Option String × List Char) :=
  match cs with
  | '[' :: '[' :: rest =>
    let page := rest.takeWhile notBracketPipe
    if page.isEmpty then Option.none
    else
      match rest.drop page.length with
      | ']' :: ']' :: rem => some (String.mk page, Option.none, rem)
      | '|' :: afterPipe =>
        let dispC := afterPipe.takeWhile notBracket
        if dispC.isEmpty then Option.none
        else
          match afterPipe.drop dispC.length with
          | ']' :: ']' :: rem => some (String.mk page, some (String.mk dispC), rem)
          | _ => Option.none
      | _ => Option.none
  | _ => Option.none

/-- A successful wiki-link match consumes at least one character. -/
theorem tryWikiLink_rem_length {cs rem : List Char} {p : String}
    {d : Option String} (h : tryWikiLink cs = some (p, d, rem)) :
    rem.length < cs.length := by
  unfold tryWikiLink at h
  split at h
  case h_2 => exact absurd h (by simp)
  case h_1 _ rest =>
    simp only [] at h
    split at h
    · exact absurd h (by simp)
    · split at h
      case h_1 _ rem0 heq =>
        have hlen : rem0.length + 2 ≤ rest.length := by
          have := congrArg List.length heq
          simp [List.length_drop] at this
          omega
        simp only [Option.some.injEq, Prod.mk.injEq] at h
        obtain ⟨-, -, hr⟩ := h
        subst hr
        simp only [List.length_cons]
        omega
      case h_2 _ afterPipe heq =>
        have hlen1 : afterPipe.length + 1 ≤ rest.length := by
          have := congrArg List.length heq
          simp [List.length_drop] at this
          omega
        split at h
        · exact absurd h (by simp)
        · split at h
          case h_1 _ rem0 heq2 =>
            have hlen2 : rem0.length + 2 ≤ afterPipe.length := by
              have := congrArg List.length heq2
              simp [List.length_drop] at this
              omega
            simp only [Option.some.injEq, Prod.mk.injEq] at h
            obtain ⟨-, -, hr⟩ := h
            subst hr
            simp only [List.length_cons]
            omega
          case h_2 => exact absurd h (by simp)
      case h_3 => exact absurd h (by simp)

/-- The replacement callback of `processWikiLinks`. -/
def wikiLinkReplacement (opts : ContentProcessorOptions)
    (page : String) (display : Option String) : String :=
  let pageName := jsTrim page
  let displayText :=
    match display with
    | some d => let t := jsTrim d; if t = "" then pageName else t
    | Option.none => pageName
  if opts.wikiLinkStyleText then displayText
  else
    let slug := cpSlugify pageName
    "[" ++ displayText ++ "](" ++ opts.linkBasePath ++ slug ++ ")"

/-- The global-replace scan of `processWikiLinks`; `prev` is the original
character before the current position (for the `(?<!!)` lookbehind).  Fuel
as in `scanImageEmbedsFuel` (see `tryWikiLink_rem_length`). -/
def scanWikiLinksFuel (opts : ContentProcessorOptions) :
    Nat → Option Char → List Char → List Char
  | 0, _, _ => []
  | _ + 1, _, [] => []
  | fuel + 1, prev, c :: rest =>
    match tryWikiLink (c :: rest) with
    | some (page, display, rem) =>
      if prev = some '!' then
        c :: scanWikiLinksFuel opts fuel (some c) rest
      else
        (wikiLinkReplacement opts page display).data ++
          scanWikiLinksFuel opts fuel (some ']') rem
    | Option.none => c :: scanWikiLinksFuel opts fuel (some c) rest

/-- `ContentProcessor.processWikiLinks`. -/
def processWikiLinks (opts : ContentProcessorOptions) (content : String) : String :=
  String.mk (scanWikiLinksFuel opts content.data.length Option.none content.data)

/-- `ContentProcessor.process`: image embeds first, then wiki-links. -/
def process (opts : ContentProcessorOptions) (content : String) : ProcessedContent :=
  let imgPass := processImageEmbeds opts content
  ⟨processWikiLinks opts imgPass.1, imgPass.2⟩

/-- `takeWhile` runs through an entire prefix whose characters all satisfy
the predicate. -/
theorem takeWhile_append_all {p : Char → Bool} {l1 l2 : List Char}
    (h : ∀ c ∈ l1, p c = true) :
    (l1 ++ l2).takeWhile p = l1 ++ l2.takeWhile p := by
  induction l1 with
  | nil => simp
  | cons c cs ih =>
    have hc : p c = true := h c (List.mem_cons_self c cs)
    simp [List.takeWhile_cons, hc, ih (fun d hd => h d (List.mem_cons_of_mem c hd))]


/-- Unfolding step of the image scan at a successful match. -/
theorem scanImageEmbedsFuel_cons_some (opts : ContentProcessorOptions)
    {fuel : Nat} {c : Char} {rest m : List Char} {f : String}
    {a : Option String} {rem : List Char}
    (h : tryImageEmbed (c :: rest) = some (m, f, a, rem)) :
    scanImageEmbedsFuel opts (fuel + 1) (c :: rest) =
      ((imageEmbedReplacement opts (String.mk m) f a).1.data ++
         (scanImageEmbedsFuel opts fuel rem).1,
       (imageEmbedReplacement opts (String.mk m) f a).2 ::
         (scanImageEmbedsFuel opts fuel rem).2) := by
  simp only [scanImageEmbedsFuel, h]

/-- The image scan is empty on the empty input, with any budget. -/
theorem scanImageEmbedsFuel_nil (opts : ContentProcessorOptions) (fuel : Nat) :
    scanImageEmbedsFuel opts fuel [] = ([], []) := by
  cases fuel <;> rfl

/-- The image-embed regex matches a whole single-embed document without a
caption. -/
theorem tryImageEmbed_noalt (name : String) (hn : name.data ≠ [])
    (hnc : ∀ c ∈ name.data, notBracketPipe c = true) :
    tryImageEmbed ('!' :: '[' :: '[' :: (name.data ++ [']', ']'])) =
      some ('!' :: '[' :: '[' :: (name.data ++ [']', ']']), name, Option.none, []) := by
  unfold tryImageEmbed
  simp only []
  rw [takeWhile_append_all hnc]
  have h1 : List.takeWhile notBracketPipe [']', ']'] = [] := by decide
  rw [h1, List.append_nil]
  have h2 : name.data.isEmpty = false := by
    cases hd : name.data with
    | nil => exact absurd hd hn
    | cons a as => rfl
  rw [h2]
  simp only [Bool.false_eq_true, if_false, List.drop_left]

/-- The image-embed regex matches a whole single-embed document with a
caption. -/
theorem tryImageEmbed_alt (name alt : String) (hn : name.data ≠ [])
    (hnc : ∀ c ∈ name.data, notBracketPipe c = true)
    (ha : alt.data ≠ [])
    (hac : ∀ c ∈ alt.data, notBracket c = true) :
    tryImageEmbed ('!' :: '[' :: '[' :: (name.data ++ '|' :: (alt.data ++ [']', ']']))) =
      some ('!' :: '[' :: '[' :: (name.data ++ '|' :: (alt.data ++ [']', ']'])),
            name, some alt, []) := by
  unfold tryImageEmbed
  simp only []
  rw [takeWhile_append_all hnc]
  have h1 : List.takeWhile notBracketPipe ('|' :: (alt.data ++ [']', ']'])) = [] := by
    simp [List.takeWhile_cons, notBracketPipe]
  rw [h1, List.append_nil]
  have h2 : name.data.isEmpty = false := by
    cases hd : name.data with
    | nil => exact absurd hd hn
    | cons a as => rfl
  rw [h2]
  simp only [Bool.false_eq_true, if_false, List.drop_left]
  rw [takeWhile_append_all hac]
  have h3 : List.takeWhile notBracket ([']', ']'] : List Char) = [] := by decide
  rw [h3, List.append_nil]
  have h4 : alt.data.isEmpty = false := by
    cases hd : alt.data with
    | nil => exact absurd hd ha
    | cons a as => rfl
  rw [h4]
  simp only [Bool.false_eq_true, if_false, List.drop_left]

/-- Claim C9 as stated is false on folder-prefixed embeds: for
`![[pics/a.png]]` the recorded `AssetReference.filename` is the full cleaned
reference `pics/a.png`, not the claim's prefix-stripped `a.png` (only the
caption and the uploaded filename strip the folder). -/
theorem c9_counterexample :
    (process DEFAULT_OPTIONS "![[pics/a.png]]").assets =
      [⟨"![[pics/a.png]]", "pics/a.png", "assets/images/a.png"⟩] ∧
    ("pics/a.png" : String) ≠ "a.png" := by
  constructor
  · decide
  · decide

/-- Claim C9, amended: the image-embed pass rewrites `![[name]]` (and
`![[name|alt]]`) to a standard markdown image whose caption is the explicit
caption when it trims nonempty (else the filename without extension) and
whose target is the stripped assets base path joined with the (possibly
prefixed) last path segment of the reference; the recorded asset keeps the
full trimmed reference (folder prefix included) as its `filename`.  The
claim's own default-config example `![[a.png]]` behaves exactly as stated. -/
theorem c9_image_embed_pass (opts : ContentProcessorOptions) (name alt : String)
    (hn : name.data ≠ [])
    (hnc : ∀ c ∈ name.data, notBracketPipe c = true)
    (ha : alt.data ≠ [])
    (hac : ∀ c ∈ alt.data, notBracket c = true)
    (hat : jsTrim alt ≠ "") :
    processImageEmbeds opts ("![[" ++ name ++ "]]") =
      ("![" ++ getBasename (lastSegment (jsTrim name)) ++ "](/" ++
         assetTargetPath opts (lastSegment (jsTrim name)) ++ ")",
       [⟨"![[" ++ name ++ "]]", jsTrim name,
         assetTargetPath opts (lastSegment (jsTrim name))⟩]) ∧
    processImageEmbeds opts ("![[" ++ name ++ "|" ++ alt ++ "]]") =
      ("![" ++ jsTrim alt ++ "](/" ++
         assetTargetPath opts (lastSegment (jsTrim name)) ++ ")",
       [⟨"![[" ++ name ++ "|" ++ alt ++ "]]", jsTrim name,
         assetTargetPath opts (lastSegment (jsTrim name))⟩]) ∧
    process DEFAULT_OPTIONS "![[a.png]]" =
      ⟨"![a](/assets/images/a.png)",
       [⟨"![[a.png]]", "a.png", "assets/images/a.png"⟩]⟩ := by
  refine ⟨?_, ?_, by decide⟩
  · have hdata : ("![[" ++ name ++ "]]").data =
        '!' :: '[' :: '[' :: (name.data ++ [']', ']']) := by
      simp [String.data_append]
    have htry := tryImageEmbed_noalt name hn hnc
    have hlen : ('!' :: '[' :: '[' :: (name.data ++ [']', ']'])).length =
        (name.data.length + 4) + 1 := by
      simp
    unfold processImageEmbeds scanImageEmbeds
    rw [hdata, hlen, scanImageEmbedsFuel_cons_some opts htry,
      scanImageEmbedsFuel_nil]
    have hmatched : String.mk ('!' :: '[' :: '[' :: (name.data ++ [']', ']'])) =
        "![[" ++ name ++ "]]" := by
      apply String.ext
      rw [hdata]
    rw [hmatched]
    simp only [List.append_nil]
    unfold imageEmbedReplacement
    simp only []
  · have hdata : ("![[" ++ name ++ "|" ++ alt ++ "]]").data =
        '!' :: '[' :: '[' :: (name.data ++ '|' :: (alt.data ++ [']', ']'])) := by
      simp [String.data_append]
    have htry := tryImageEmbed_alt name alt hn hnc ha hac
    have hlen : ('!' :: '[' :: '[' ::
        (name.data ++ '|' :: (alt.data ++ [']', ']']))).length =
        (name.data.length + alt.data.length + 5) + 1 := by
      simp
      omega
    unfold processImageEmbeds scanImageEmbeds
    rw [hdata, hlen, scanImageEmbedsFuel_cons_some opts htry,
      scanImageEmbedsFuel_nil]
    have hmatched : String.mk ('!' :: '[' :: '[' ::
        (name.data ++ '|' :: (alt.data ++ [']', ']']))) =
        "![[" ++ name ++ "|" ++ alt ++ "]]" := by
      apply String.ext
      rw [hdata]
    rw [hmatched]
    simp only [List.append_nil]
    unfold imageEmbedReplacement
    simp only [hat, if_false]

/-- Witness for the amended C9 at a concrete folder-prefixed embed with an
explicit caption. -/
theorem c9_image_embed_pass_witness :
    processImageEmbeds DEFAULT_OPTIONS "![[pics/a.png|Cap]]" =
      ("![" ++ jsTrim "Cap" ++ "](/" ++
         assetTargetPath DEFAULT_OPTIONS (lastSegment (jsTrim "pics/a.png")) ++ ")",
       [⟨"![[" ++ "pics/a.png" ++ "|" ++ "Cap" ++ "]]", jsTrim "pics/a.png",
         assetTargetPath DEFAULT_OPTIONS (lastSegment (jsTrim "pics/a.png"))⟩]) := by
  have h := (c9_image_embed_pass DEFAULT_OPTIONS "pics/a.png" "Cap"
    (by decide) (by decide) (by decide) (by decide) (by decide)).2.1
  have harg : "![[" ++ "pics/a.png" ++ "|" ++ "Cap" ++ "]]" = "![[pics/a.png|Cap]]" := by
    decide
  rw [harg] at h
  exact h

/- ## GitHub client retry logic (src/github/client.ts) -/

/-- DEFAULT_MAX_RETRIES of client.ts. -/
def DEFAULT_MAX_RETRIES : Nat := 3

/-- `isRetryableStatusCode`: 429 and any 5xx. -/
def isRetryableStatusCode (status : Nat) : Bool :=
  status == 429 || (500 ≤ status && status < 600)

/-- The transient network-error signatures of `isRetryableError`. -/
def networkErrorPatterns : List String :=
  ["timeout", "timed out", "econnreset", "econnrefused", "enetunreach",
   "enotfound", "socket hang up", "network error", "fetch failed",
   "failed to fetch"]

/-- First match of the status regex in `isRetryableError`: scan left to
right for the literal `GitHub API error (` followed by digits and a closing
parenthesis. -/
def statusFromMsg : List Char → Option Nat
  | [] => Option.none
  | c :: rest =>
    if ("GitHub API error (".data).isPrefixOf (c :: rest) then
      let after := (c :: rest).drop 18
      let digits := after.takeWhile Char.isDigit
      if !digits.isEmpty && ((after.drop digits.length).headD ' ') == ')' then
        some (digitsToNat digits)
      else statusFromMsg rest
    else statusFromMsg rest

/-- `isRetryableError` on an error message: a parsed API status decides via
`isRetryableStatusCode`; otherwise the lowercased message is searched for the
transient network signatures. -/
def isRetryableError (msg : String) : Bool :=
  match statusFromMsg msg.data with
  | some status => isRetryableStatusCode status
  | Option.none => networkErrorPatterns.any (fun p => strIncludes (jsToLower msg) p)

/-- Outcome of one transport attempt: an HTTP response (with the error text
the client composes from the JSON body when non-2xx) or a thrown network
error. -/
inductive HttpOutcome where
  | resp (status : Nat) (errMsg : String)
  | netErr (msg : String)

/-- `GitHubClient.requestOnce`: non-2xx statuses become
`GitHub API error (<status>): <message>`, transport throws become
`GitHub API request failed: <message>`. -/
def requestOnce : HttpOutcome → Except String Unit
  | .resp status msg =>
    if 200 ≤ status && status < 300 then Except.ok ()
    else Except.error ("GitHub API error (" ++ toString status ++ "): " ++ msg)
  | .netErr msg => Except.error ("GitHub API request failed: " ++ msg)

/-- The retry loop of `GitHubClient.request` from a given attempt index;
`fuel` is the number of loop iterations left
(`DEFAULT_MAX_RETRIES + 1 - attempt`), so `fuel = 0` after a retryable
failure means the failing attempt was the last and its error is rethrown.
Returns (number of calls performed, result). -/
def requestLoop (oracle : Nat → HttpOutcome) : Nat → Nat → Nat × Except String Unit
  | _, 0 => (0, Except.error "Request failed after retries")
  | attempt, fuel + 1 =>
    match requestOnce (oracle attempt) with
    | Except.ok u => (1, Except.ok u)
    | Except.error e =>
      if !isRetryableError e then (1, Except.error e)
      else if fuel = 0 then (1, Except.error e)
      else
        let r := requestLoop oracle (attempt + 1) fuel
        (r.1 + 1, r.2)

/-- `GitHubClient.request`: up to `DEFAULT_MAX_RETRIES + 1` attempts, the
`i`-th drawing outcome `oracle i`. -/
def request (oracle : Nat → HttpOutcome) : Nat × Except String Unit :=
  requestLoop oracle 0 (DEFAULT_MAX_RETRIES + 1)

/-- Unfolding of the retry loop at a successful attempt. -/
theorem requestLoop_ok_step (oracle : Nat → HttpOutcome) (attempt fuel : Nat)
    (u : Unit) (h : requestOnce (oracle attempt) = Except.ok u) :
    requestLoop oracle attempt (fuel + 1) = (1, Except.ok u) := by
  rw [requestLoop, h]

/-- Unfolding of the retry loop at a failing attempt. -/
theorem requestLoop_error_step (oracle : Nat → HttpOutcome) (attempt fuel : Nat)
    (e : String) (h : requestOnce (oracle attempt) = Except.error e) :
    requestLoop oracle attempt (fuel + 1) =
      if isRetryableError e = false then (1, Except.error e)
      else if fuel = 0 then (1, Except.error e)
      else ((requestLoop oracle (attempt + 1) fuel).1 + 1,
            (requestLoop oracle (attempt + 1) fuel).2) := by
  rw [requestLoop, h]
  simp only [Bool.not_eq_true']

/-- The loop performs between 1 and `fuel` calls. -/
theorem requestLoop_calls_bounds (oracle : Nat → HttpOutcome) :
    ∀ (fuel attempt : Nat), 0 < fuel →
      1 ≤ (requestLoop oracle attempt fuel).1 ∧
      (requestLoop oracle attempt fuel).1 ≤ fuel := by
  intro fuel
  induction fuel with
  | zero => intro attempt h; exact absurd h (by omega)
  | succ fuel ih =>
    intro attempt _
    cases hro : requestOnce (oracle attempt) with
    | ok u => rw [requestLoop_ok_step oracle attempt fuel u hro]; simp
    | error e =>
      rw [requestLoop_error_step oracle attempt fuel e hro]
      by_cases hnr : isRetryableError e = false
      · rw [if_pos hnr]; simp
      · rw [if_neg hnr]
        by_cases hf : fuel = 0
        · rw [if_pos hf]; simp
        · rw [if_neg hf]
          have := ih (attempt + 1) (Nat.pos_of_ne_zero hf)
          refine ⟨?_, ?_⟩
          · show 1 ≤ (requestLoop oracle (attempt + 1) fuel).1 + 1
            omega
          · show (requestLoop oracle (attempt + 1) fuel).1 + 1 ≤ fuel + 1
            omega

/-- Every non-final call of the loop failed with a retryable error. -/
theorem requestLoop_retry_only (oracle : Nat → HttpOutcome) :
    ∀ (fuel attempt k : Nat), k + 1 < (requestLoop oracle attempt fuel).1 →
      ∃ e, requestOnce (oracle (attempt + k)) = Except.error e ∧
        isRetryableError e = true := by
  intro fuel
  induction fuel with
  | zero =>
    intro attempt k h
    simp [requestLoop] at h
  | succ fuel ih =>
    intro attempt k h
    cases hro : requestOnce (oracle attempt) with
    | ok u => rw [requestLoop_ok_step oracle attempt fuel u hro] at h; simp at h
    | error e =>
      rw [requestLoop_error_step oracle attempt fuel e hro] at h
      by_cases hnr : isRetryableError e = false
      · rw [if_pos hnr] at h; simp at h
      · rw [if_neg hnr] at h
        by_cases hf : fuel = 0
        · rw [if_pos hf] at h; simp at h
        · rw [if_neg hf] at h
          have h' : k + 1 < (requestLoop oracle (attempt + 1) fuel).1 + 1 := h
          match k with
          | 0 =>
            refine ⟨e, hro, ?_⟩
            cases hie : isRetryableError e
            · exact absurd hie hnr
            · rfl
          | k' + 1 =>
            have hk : k' + 1 < (requestLoop oracle (attempt + 1) fuel).1 := by omega
            obtain ⟨e2, he2, hre2⟩ := ih (attempt + 1) k' hk
            refine ⟨e2, ?_, hre2⟩
            rw [show attempt + (k' + 1) = attempt + 1 + k' from by omega]
            exact he2

/-- A failing loop result carries the error of its last call unchanged. -/
theorem requestLoop_last_error (oracle : Nat → HttpOutcome) :
    ∀ (fuel attempt : Nat) (e : String), 0 < fuel →
      (requestLoop oracle attempt fuel).2 = Except.error e →
      requestOnce (oracle (attempt + ((requestLoop oracle attempt fuel).1 - 1))) =
        Except.error e := by
  intro fuel
  induction fuel with
  | zero => intro attempt e h; exact absurd h (by omega)
  | succ fuel ih =>
    intro attempt e _ hres
    cases hro : requestOnce (oracle attempt) with
    | ok u =>
      rw [requestLoop_ok_step oracle attempt fuel u hro] at hres
      simp at hres
    | error e0 =>
      rw [requestLoop_error_step oracle attempt fuel e0 hro] at hres ⊢
      by_cases hnr : isRetryableError e0 = false
      · rw [if_pos hnr] at hres ⊢
        simp only [Except.error.injEq] at hres
        subst hres
        simpa using hro
      · rw [if_neg hnr] at hres ⊢
        by_cases hf : fuel = 0
        · rw [if_pos hf] at hres ⊢
          simp only [Except.error.injEq] at hres
          subst hres
          simpa using hro
        · rw [if_neg hf] at hres ⊢
          have hpos := (requestLoop_calls_bounds oracle fuel (attempt + 1)
            (Nat.pos_of_ne_zero hf)).1
          have hrec := ih (attempt + 1) e (Nat.pos_of_ne_zero hf) hres
          rw [show attempt + ((requestLoop oracle (attempt + 1) fuel).1 + 1 - 1) =
              attempt + 1 + ((requestLoop oracle (attempt + 1) fuel).1 - 1) from by omega]
          exact hrec

/-- Claim C4: retry counts.  Two 429s then a 200 succeed in exactly 3 calls;
a sustained 503 fails after exactly 4 calls; a single 404 or 401 fails after
exactly 1 call; every request makes between 1 and 4 calls; every non-final
call failed retryably (HTTP 429/5xx or a transient network signature); and a
failing request raises its last attempt's error as-is. -/
theorem c4_retry_counts :
    (request (fun i => if i < 2 then HttpOutcome.resp 429 "Rate limit exceeded"
                       else HttpOutcome.resp 200 "") = (3, Except.ok ())) ∧
    (request (fun _ => HttpOutcome.resp 503 "Service Unavailable") =
      (4, Except.error "GitHub API error (503): Service Unavailable")) ∧
    (request (fun _ => HttpOutcome.resp 404 "Not Found") =
      (1, Except.error "GitHub API error (404): Not Found")) ∧
    (request (fun _ => HttpOutcome.resp 401 "Bad credentials") =
      (1, Except.error "GitHub API error (401): Bad credentials")) ∧
    (∀ oracle : Nat → HttpOutcome,
      1 ≤ (request oracle).1 ∧ (request oracle).1 ≤ DEFAULT_MAX_RETRIES + 1) ∧
    (∀ (oracle : Nat → HttpOutcome) (k : Nat), k + 1 < (request oracle).1 →
      ∃ e, requestOnce (oracle k) = Except.error e ∧ isRetryableError e = true) ∧
    (∀ (oracle : Nat → HttpOutcome) (e : String),
      (request oracle).2 = Except.error e →
      requestOnce (oracle ((request oracle).1 - 1)) = Except.error e) := by
  refine ⟨by rfl, by rfl, by rfl, by rfl, ?_, ?_, ?_⟩
  · intro oracle
    exact requestLoop_calls_bounds oracle (DEFAULT_MAX_RETRIES + 1) 0 (by norm_num)
  · intro oracle k h
    have := requestLoop_retry_only oracle (DEFAULT_MAX_RETRIES + 1) 0 k h
    rwa [Nat.zero_add] at this
  · intro oracle e h
    have := requestLoop_last_error oracle (DEFAULT_MAX_RETRIES + 1) 0 e (by norm_num) h
    rwa [Nat.zero_add] at this

/-- Witness for C4's quantified parts at the sustained-503 oracle. -/
theorem c4_retry_counts_witness :
    1 ≤ (request (fun _ => HttpOutcome.resp 503 "Service Unavailable")).1 ∧
    (∃ e, requestOnce (HttpOutcome.resp 503 "Service Unavailable") = Except.error e ∧
      isRetryableError e = true) ∧
    requestOnce (HttpOutcome.resp 503 "Service Unavailable") =
      Except.error "GitHub API error (503): Service Unavailable" := by
  have h := c4_retry_counts
  refine ⟨(h.2.2.2.2.1 (fun _ => HttpOutcome.resp 503 "Service Unavailable")).1,
    h.2.2.2.2.2.1 (fun _ => HttpOutcome.resp 503 "Service Unavailable") 0 (by decide),
    h.2.2.2.2.2.2 (fun _ => HttpOutcome.resp 503 "Service Unavailable")
      "GitHub API error (503): Service Unavailable" (by rfl)⟩

/- ## Backoff (calculateBackoffDelay of client.ts) -/

/-- `calculateBackoffDelay` of client.ts over exact rationals: `j` models the
jitter draw `Math.random() * 2 - 1 ∈ [-1, 1)` and JS `Math.round x` is
`⌊x + 1/2⌋`.  The source jitters the UNCLAMPED exponential value and clamps
afterwards. -/
def calculateBackoffDelay (attempt : Nat) (baseDelay maxDelay : ℚ) (j : ℚ) : ℤ :=
  let exponentialDelay := baseDelay * 2 ^ attempt
  let jitter := exponentialDelay * (1/4) * j
  let delay := min (exponentialDelay + jitter) maxDelay
  ⌊delay + 1/2⌋

/-- Modelled from the spec: the claim's clamp-then-jitter formula,
`min(maxDelay, baseDelay × 2^attempt)` with that result then jittered by
±25%. -/
def specBackoffDelay (attempt : Nat) (baseDelay maxDelay : ℚ) (j : ℚ) : ℤ :=
  let clamped := min (baseDelay * 2 ^ attempt) maxDelay
  ⌊clamped + clamped * (1/4) * j + 1/2⌋

/-- Rounding a half-integer: JS `Math.round` on `n + 1/2`. -/
theorem floor_add_half (n : ℤ) : ⌊(n : ℚ) + 1/2⌋ = n := by
  rw [Int.floor_eq_iff]
  constructor
  · linarith
  · push_cast
    linarith

/-- Claim C8 as stated is false: the code jitters before clamping, the claim
clamps before jittering.  At attempt 4 with jitter draw `j = 4/5`
(`Math.random() = 0.9`) the code returns exactly 10000 while the claim's
formula gives 12000. -/
theorem c8_counterexample :
    calculateBackoffDelay 4 1000 10000 (4/5) = 10000 ∧
    specBackoffDelay 4 1000 10000 (4/5) = 12000 ∧
    (10000 : ℤ) ≠ 12000 := by
  refine ⟨?_, ?_, by norm_num⟩
  · unfold calculateBackoffDelay
    simp only []
    have hmin : min ((1000:ℚ) * 2 ^ 4 + 1000 * 2 ^ 4 * (1/4) * (4/5)) 10000 = 10000 := by
      rw [min_eq_right]
      norm_num
    rw [hmin]
    exact_mod_cast floor_add_half 10000
  · unfold specBackoffDelay
    simp only []
    have hmin : min ((1000:ℚ) * 2 ^ 4) 10000 = 10000 := by
      rw [min_eq_right]
      norm_num
    rw [hmin]
    have harg : (10000:ℚ) + 10000 * (1/4) * (4/5) + 1/2 = (12000 : ℤ) + 1/2 := by
      norm_num
    rw [harg]
    exact floor_add_half 12000

/-- Floor bounds give the ±25% window around an integer multiple of 4. -/
theorem backoff_small_case (m : ℤ) (j x : ℚ) (hm : 0 < m)
    (hx : x = 4 * (m : ℚ) + 4 * (m : ℚ) * (1/4) * j)
    (hmax : (m : ℚ) * 5 ≤ 10000)
    (h1 : -1 ≤ j) (h2 : j < 1) :
    |(⌊min x 10000 + 1/2⌋ : ℚ) - 4 * (m : ℚ)| ≤ 4 * (m : ℚ) / 4 := by
  have hmq : (0 : ℚ) < (m : ℚ) := by exact_mod_cast hm
  have hlt : x ≤ 10000 := by
    rw [hx]
    nlinarith
  rw [min_eq_left hlt]
  have hlow : (3 * m : ℤ) ≤ ⌊x + 1/2⌋ := by
    rw [Int.le_floor, hx]
    push_cast
    nlinarith
  have hhigh : ⌊x + 1/2⌋ < 5 * m + 1 := by
    rw [Int.floor_lt, hx]
    push_cast
    nlinarith
  have hhigh2 : ⌊x + 1/2⌋ ≤ 5 * m := by omega
  rw [abs_le]
  have hlowq : ((3 * m : ℤ) : ℚ) ≤ (⌊x + 1/2⌋ : ℚ) := by exact_mod_cast hlow
  have hhighq : ((⌊x + 1/2⌋ : ℤ) : ℚ) ≤ ((5 * m : ℤ) : ℚ) := by exact_mod_cast hhigh2
  push_cast at hlowq hhighq
  constructor
  · linarith
  · linarith

/-- Claim C8, amended: the delay is `round(min(maxDelay, e + e·(±25%)))` for
`e = baseDelay · 2^attempt` — jitter first, clamp after — and the claim's
derived bound still holds: for every attempt and every jitter draw the
returned delay lies within ±25% of `min(maxDelay, baseDelay · 2^attempt)`
(base 1000 ms, max 10000 ms). -/
theorem c8_backoff_within_bounds (attempt : Nat) (j : ℚ)
    (h1 : -1 ≤ j) (h2 : j < 1) :
    |(calculateBackoffDelay attempt 1000 10000 j : ℚ) -
        min (1000 * 2 ^ attempt) 10000| ≤ min (1000 * 2 ^ attempt) 10000 / 4 := by
  unfold calculateBackoffDelay
  simp only []
  rcases attempt with _ | _ | _ | _ | n
  · have hE : (1000:ℚ) * 2 ^ 0 = 4 * ((250 : ℤ) : ℚ) := by norm_num
    rw [hE]
    have hminE : min (4 * ((250:ℤ):ℚ)) 10000 = 4 * ((250:ℤ):ℚ) := by
      rw [min_eq_left]
      norm_num
    rw [hminE]
    exact backoff_small_case 250 j _ (by norm_num) rfl (by norm_num) h1 h2
  · have hE : (1000:ℚ) * 2 ^ 1 = 4 * ((500 : ℤ) : ℚ) := by norm_num
    rw [hE]
    have hminE : min (4 * ((500:ℤ):ℚ)) 10000 = 4 * ((500:ℤ):ℚ) := by
      rw [min_eq_left]
      norm_num
    rw [hminE]
    exact backoff_small_case 500 j _ (by norm_num) rfl (by norm_num) h1 h2
  · have hE : (1000:ℚ) * 2 ^ 2 = 4 * ((1000 : ℤ) : ℚ) := by norm_num
    rw [hE]
    have hminE : min (4 * ((1000:ℤ):ℚ)) 10000 = 4 * ((1000:ℤ):ℚ) := by
      rw [min_eq_left]
      norm_num
    rw [hminE]
    exact backoff_small_case 1000 j _ (by norm_num) rfl (by norm_num) h1 h2
  · have hE : (1000:ℚ) * 2 ^ 3 = 4 * ((2000 : ℤ) : ℚ) := by norm_num
    rw [hE]
    have hminE : min (4 * ((2000:ℤ):ℚ)) 10000 = 4 * ((2000:ℤ):ℚ) := by
      rw [min_eq_left]
      norm_num
    rw [hminE]
    exact backoff_small_case 2000 j _ (by norm_num) rfl (by norm_num) h1 h2
  · have h2n : (1:ℚ) ≤ 2 ^ n := one_le_pow₀ (by norm_num)
    have hpow : (16000:ℚ) ≤ 1000 * 2 ^ (n + 4) := by
      rw [pow_add]
      nlinarith
    have hjit : (10000:ℚ) ≤ 1000 * 2 ^ (n+4) + 1000 * 2 ^ (n+4) * (1/4) * j := by
      nlinarith
    rw [min_eq_right hjit, min_eq_right (by nlinarith : (10000:ℚ) ≤ 1000 * 2 ^ (n+4))]
    have hfl : ⌊(10000:ℚ) + 1/2⌋ = ((10000 : ℤ)) := by
      exact_mod_cast floor_add_half 10000
    rw [hfl]
    norm_num

/-- Witness for the amended C8 at attempt 0 with jitter draw 0. -/
theorem c8_backoff_within_bounds_witness :
    |(calculateBackoffDelay 0 1000 10000 0 : ℚ) -
        min (1000 * 2 ^ 0) 10000| ≤ min (1000 * 2 ^ 0) 10000 / 4 :=
  c8_backoff_within_bounds 0 0 (by norm_num) (by norm_num)

/- ## Publisher orchestrator (publisher.ts) -/

/-- GitHub auth state (the only field the publisher reads). -/
structure GitHubAuth where
  token : String
deriving DecidableEq

/-- Plugin settings, restricted to the fields the publisher uses. -/
structure PluginSettings where
  githubAuth : Option GitHubAuth
  addDatePrefix : Bool
deriving DecidableEq

/-- One remote call the publisher can issue through the GitHubClient.  The
base64 encoding of text bodies inside `createOrUpdateFile` is abstracted:
`putFile` records the content handed to the client. -/
inductive GitCall where
  | getRef (branch : String)
  | createRef (branchName : String) (sha : String)
  | putFile (path : String) (content : String) (message : String)
      (branch : String) (isBase64 : Bool) (sha : Option String)
  | createPR (title : String) (head : String) (base : String) (body : String)
  | addLabels (prNumber : Nat) (labels : List String)
  | mergePR (prNumber : Nat) (commitTitle : String)
  | closePR (prNumber : Nat)
  | deleteBranch (branchName : String)
  | listFiles (path : String) (ref : Option String)
  | deleteFile (path : String) (message : String) (branch : String) (sha : String)
deriving DecidableEq

/-- A remote directory entry (`listFiles` output, `type == "file"` already
filtered by the client). -/
structure RepoFile where
  name : String
  path : String
  sha : String
deriving DecidableEq

/-- The decoded JSON a remote call can come back with. -/
inductive GitReply where
  | sha (s : String)
  | branch (ref : String) (sha : String)
  | file (sha : String) (path : String)
  | pr (number : Nat) (url : String) (title : String)
  | files (entries : List RepoFile)
  | unit
deriving DecidableEq

/-- Collaborator behaviours a publisher run sees: the two vault reads (the
validator's and the try-block's), the post-retry outcome of the `i`-th remote
call, and the asset store (`findAssetFile`+`readBinary`+base64, `none` when
the attachment is missing). -/
structure GitEnv where
  readValidate : Except String String
  readContent : Except String String
  git : Nat → Except String GitReply
  assetLookup : String → Option String

/-- Monad of the publisher's remote phase: call counter and trace are state,
a thrown exception is `Except.error` (the trace survives the throw). -/
def GitM (α : Type) := GitEnv → Nat × List GitCall → Except String α × Nat × List GitCall

instance : Monad GitM where
  pure a := fun _ st => (Except.ok a, st)
  bind m f := fun env st =>
    match m env st with
    | (Except.ok a, st') => f a env st'
    | (Except.error e, st') => (Except.error e, st')

/-- JS try/catch over the remote phase. -/
def tryCatchG {α : Type} (m : GitM α) (h : String → GitM α) : GitM α := fun env st =>
  match m env st with
  | (Except.ok a, st') => (Except.ok a, st')
  | (Except.error e, st') => h e env st'

/-- Throw (used for reply-shape mismatches of this model). -/
def throwG {α : Type} (e : String) : GitM α := fun _ st => (Except.error e, st)

/-- Issue one remote call and consume the next scripted outcome. -/
def callG (c : GitCall) : GitM GitReply := fun env st =>
  (env.git st.1, st.1 + 1, st.2 ++ [c])

/-- `vault.read` inside the try block. -/
def readContentG : GitM String := fun env st => (env.readContent, st)

/-- `findAssetFile` + `readBinary` + base64, as one lookup. -/
def assetLookupG (filename : String) : GitM (Option String) := fun env st =>
  (Except.ok (env.assetLookup filename), st)

/-- `GitHubClient.getBranchSha`. -/
def getBranchShaG (branch : String) : GitM String := do
  let r ← callG (.getRef branch)
  match r with
  | .sha s => pure s
  | _ => throwG "model: unexpected reply shape"

/-- `GitHubClient.branchExists`: existence check via `getBranchSha`, any
failure converted to `false`. -/
def branchExistsG (branchName : String) : GitM Bool :=
  tryCatchG (do let _ ← getBranchShaG branchName; pure true) (fun _ => pure false)

/-- `GitHubClient.createBranch` (raw: base sha, then POST the new ref). -/
def createBranchG (branchName baseBranch : String) : GitM (String × String) := do
  let baseSha ← getBranchShaG baseBranch
  let r ← callG (.createRef branchName baseSha)
  match r with
  | .branch ref sha => pure (ref, sha)
  | _ => throwG "model: unexpected reply shape"

/-- `GitHubClient.deleteBranch`. -/
def deleteBranchG (branchName : String) : GitM Unit := do
  let _ ← callG (.deleteBranch branchName)
  pure ()

/-- `GitHubClient.ensureFreshBranch`: delete any existing branch of that name
(best-effort), then create it fresh. -/
def ensureFreshBranchG (branchName baseBranch : String) : GitM (String × String) := do
  let ex ← branchExistsG branchName
  if ex then
    tryCatchG (deleteBranchG branchName) (fun _ => pure ())
  else
    pure ()
  createBranchG branchName baseBranch

/-- `GitHubClient.createOrUpdateFile`. -/
def createOrUpdateFileG (path content message branch : String)
    (isBase64 : Bool) (existingSha : Option String) : GitM (String × String) := do
  let r ← callG (.putFile path content message branch isBase64 existingSha)
  match r with
  | .file sha p => pure (sha, p)
  | _ => throwG "model: unexpected reply shape"

/-- `GitHubClient.createPullRequest`. -/
def createPullRequestG (title head base body : String) : GitM (Nat × String × String) := do
  let r ← callG (.createPR title head base body)
  match r with
  | .pr n url t => pure (n, url, t)
  | _ => throwG "model: unexpected reply shape"

/-- `GitHubClient.addLabels`. -/
def addLabelsG (prNumber : Nat) (labels : List String) : GitM Unit := do
  let _ ← callG (.addLabels prNumber labels)
  pure ()

/-- `GitHubClient.mergePullRequest`. -/
def mergePullRequestG (prNumber : Nat) (commitTitle : String) : GitM Unit := do
  let _ ← callG (.mergePR prNumber commitTitle)
  pure ()

/-- `GitHubClient.listFiles`. -/
def listFilesG (path : String) (ref : Option String) : GitM (List RepoFile) := do
  let r ← callG (.listFiles path ref)
  match r with
  | .files entries => pure entries
  | _ => throwG "model: unexpected reply shape"

/-- `GitHubClient.deleteFile`. -/
def deleteFileG (path message branch sha : String) : GitM Unit := do
  let _ ← callG (.deleteFile path message branch sha)
  pure ()

/-- `Publisher.publish` / `Publisher.unpublish` result records. -/
structure PublishResult where
  success : Bool
  prNumber : Option Nat
  prUrl : Option String
  error : Option String
  validationResult : Option ValidationResult
  assets : Option (List AssetReference)

/-- `UnpublishResult`. -/
structure UnpublishResult where
  success : Bool
  deletedFiles : List String
  error : Option String
deriving DecidableEq

/-- `FrontmatterValidator.formatErrors`. -/
def formatErrors (result : ValidationResult) : String :=
  if result.valid then ""
  else String.intercalate "\n" (result.errors.map (fun e => "• " ++ e.message))

/-- The `owner/repo` destructuring of the site's repository identifier:
`split('/')` and falsy checks on the first two parts. -/
def parseOwnerRepo (s : String) : Option (String × String) :=
  let parts := (splitOnChar '/' s.data).map String.mk
  let owner := parts.headD ""
  let repo := (parts.drop 1).headD ""
  if owner = "" || repo = "" then Option.none else some (owner, repo)

/-- Lines 272–273 of publisher.ts: the uploaded filename, date-prefixed with
TODAY's date exactly when `addDatePrefix` is set (the frontmatter date is
never consulted). -/
def targetFilename (addDatePrefix : Bool) (today slug : String) : String :=
  let datePre := if addDatePrefix then today else ""
  if datePre = "" then slug ++ ".md" else datePre ++ "-" ++ slug ++ ".md"

/-- The asset-upload loop of `Publisher.publish` (missing attachments are
skipped with a console warning). -/
def uploadAssetsG (branchName : String) : List AssetReference → GitM Unit
  | [] => pure ()
  | a :: rest => do
    let found ← assetLookupG a.filename
    match found with
    | some b64 =>
      let _ ← createOrUpdateFileG a.targetPath b64 ("Add image: " ++ a.filename)
        branchName true Option.none
      uploadAssetsG branchName rest
    | Option.none => uploadAssetsG branchName rest

/-- The try-block body of `Publisher.publish`. -/
def publishOps (settings : PluginSettings) (site : SiteConfig)
    (file : TAbstractFile) (immediate : Bool) (today : String) :
    GitM PublishResult := do
  let rawContent ← readContentG
  let slug := slugify file.basename
  let opts : ContentProcessorOptions :=
    ⟨"/", "/" ++ site.assetsPath ++ "/", true, slug⟩
  let processed := process opts rawContent
  let tf := targetFilename settings.addDatePrefix today slug
  let branchName := "publish/" ++ slug
  let _ ← createBranchG branchName site.baseBranch
  let targetPath := site.postsPath ++ "/" ++ tf
  let _ ← createOrUpdateFileG targetPath processed.content
    ("Add post: " ++ file.basename) branchName false Option.none
  uploadAssetsG branchName processed.assets
  let prTitle := "Publish: " ++ file.basename
  let prBody := "Publishing \"" ++ file.basename ++ "\" to " ++ site.name ++
    ".\n\nCreated by Obsidian GitHub Web Publish plugin."
  let pr ← createPullRequestG prTitle branchName site.baseBranch prBody
  if immediate then
    mergePullRequestG pr.1 prTitle
    tryCatchG (deleteBranchG branchName) (fun _ => pure ())
  else
    addLabelsG pr.1 [site.scheduledLabel]
  pure ⟨true, some pr.1, some pr.2.1, Option.none, Option.none, some processed.assets⟩

/-- `Publisher.publish`: auth check, frontmatter validation (whose
`vault.read` happens OUTSIDE the try block), repo parsing, then the remote
phase with its catch.  `Except.error` in the first component is an exception
escaping the public boundary. -/
def publish (settings : PluginSettings) (site : SiteConfig)
    (file : TAbstractFile) (immediate : Bool) (today : String) (env : GitEnv) :
    Except String PublishResult × Nat × List GitCall :=
  if settings.githubAuth.isNone then
    (Except.ok ⟨false, Option.none, Option.none,
      some "Not authenticated with GitHub", Option.none, Option.none⟩, 0, [])
  else
    match env.readValidate with
    | Except.error e => (Except.error e, 0, [])
    | Except.ok contentV =>
      let vres := validateContent contentV DEFAULT_RULES
      if !vres.valid then
        (Except.ok ⟨false, Option.none, Option.none,
          some ("Validation failed:\n" ++ formatErrors vres), some vres,
          Option.none⟩, 0, [])
      else
        match parseOwnerRepo site.githubRepo with
        | Option.none =>
          (Except.ok ⟨false, Option.none, Option.none,
            some "Invalid repository format. Expected owner/repo", Option.none,
            Option.none⟩, 0, [])
        | some _ =>
          match publishOps settings site file immediate today env (0, []) with
          | (Except.ok r, st) => (Except.ok r, st)
          | (Except.error e, st) =>
            (Except.ok ⟨false, Option.none, Option.none, some e, Option.none,
              Option.none⟩, st)

/-- `.replace(/\.md$/, '')`. -/
def stripMdExt (s : String) : String :=
  if strEndsWith s ".md" then strDropRight s 3 else s

/-- The date-prefix pattern `^\d{4}-\d{2}-\d{2}-<slug>$` of
`Publisher.unpublish` (the slug, being slugified, has no regex
metacharacters). -/
def isDatePrefixed (n slug : String) : Bool :=
  match n.data with
  | a :: b :: c :: d :: h1 :: e :: f :: h2 :: g :: h :: h3 :: rest =>
    a.isDigit && b.isDigit && c.isDigit && d.isDigit && h1 = '-' &&
    e.isDigit && f.isDigit && h2 = '-' && g.isDigit && h.isDigit && h3 = '-' &&
    rest == slug.data
  | _ => false

/-- The post-selection predicate of `Publisher.unpublish`: the name minus a
`.md` extension equals the slug, or matches the date-prefix pattern. -/
def matchesSlugPattern (fname slug : String) : Bool :=
  stripMdExt fname == slug || isDatePrefixed (stripMdExt fname) slug

/-- The post-deletion loop of `Publisher.unpublish` (paths pushed after each
successful deletion; a failure propagates to the outer catch). -/
def deletePostsG (branchName : String) : List RepoFile → GitM (List String)
  | [] => pure []
  | p :: rest => do
    deleteFileG p.path ("Remove post: " ++ p.name) branchName p.sha
    let r ← deletePostsG branchName rest
    pure (p.path :: r)

/-- The asset-deletion loop inside `unpublish`'s inner try: a failure stops
the loop but keeps the paths already deleted (the catch swallows it). -/
def deleteAssetsLoopG (branchName : String) :
    List RepoFile → List String → GitM (List String)
  | [], acc => pure acc
  | a :: rest, acc => fun env st =>
    match deleteFileG a.path ("Remove asset: " ++ a.name) branchName a.sha env st with
    | (Except.ok _, st') => deleteAssetsLoopG branchName rest (acc ++ [a.path]) env st'
    | (Except.error _, st') => (Except.ok acc, st')

/-- The optional asset-deletion section of `unpublish`: list the assets
directory on the new branch, delete entries named `<slug>-…`; a listing
failure is swallowed (the directory may not exist). -/
def assetSectionG (site : SiteConfig) (slug branchName : String)
    (deletedSoFar : List String) : GitM (List String) := fun env st =>
  match listFilesG site.assetsPath (some branchName) env st with
  | (Except.ok afs, st') =>
    let matching := afs.filter (fun f => strStartsWith f.name (slug ++ "-"))
    deleteAssetsLoopG branchName matching deletedSoFar env st'
  | (Except.error _, st') => (Except.ok deletedSoFar, st')

/-- The try-block body of `Publisher.unpublish`. -/
def unpublishOps (site : SiteConfig) (file : TAbstractFile)
    (deleteAssets : Bool) : GitM UnpublishResult := do
  let slug := slugify file.basename
  let branchName := "unpublish/" ++ slug
  let postsFiles ← listFilesG site.postsPath (some site.baseBranch)
  let matchingPosts := postsFiles.filter (fun f => matchesSlugPattern f.name slug)
  if matchingPosts.isEmpty then
    pure ⟨false, [],
      some ("No published post found matching \"" ++ slug ++ "\" in " ++
        site.postsPath ++ "/")⟩
  else do
    let _ ← createBranchG branchName site.baseBranch
    let deleted ← deletePostsG branchName matchingPosts
    let deletedAll ←
      if deleteAssets then assetSectionG site slug branchName deleted
      else pure deleted
    let prTitle := "Unpublish: " ++ file.basename
    let prBody := "Removing \"" ++ file.basename ++ "\" from " ++ site.name ++
      ".\n\nDeleted files:\n" ++
      String.intercalate "\n" (deletedAll.map (fun f => "- " ++ f)) ++
      "\n\nCreated by Obsidian GitHub Web Publish plugin."
    let pr ← createPullRequestG prTitle branchName site.baseBranch prBody
    mergePullRequestG pr.1 prTitle
    tryCatchG (deleteBranchG branchName) (fun _ => pure ())
    pure ⟨true, deletedAll, Option.none⟩

/-- `Publisher.unpublish`: auth and repo checks, then the remote phase with
its catch. -/
def unpublish (settings : PluginSettings) (site : SiteConfig)
    (file : TAbstractFile) (deleteAssets : Bool) (env : GitEnv) :
    Except String UnpublishResult × Nat × List GitCall :=
  if settings.githubAuth.isNone then
    (Except.ok ⟨false, [], some "Not authenticated with GitHub"⟩, 0, [])
  else
    match parseOwnerRepo site.githubRepo with
    | Option.none =>
      (Except.ok ⟨false, [], some "Invalid repository format. Expected owner/repo"⟩,
       0, [])
    | some _ =>
      match unpublishOps site file deleteAssets env (0, []) with
      | (Except.ok r, st) => (Except.ok r, st)
      | (Except.error e, st) => (Except.ok ⟨false, [], some e⟩, st)

/- ## Concrete fixtures for the orchestrator claims -/

/-- A concrete site configuration. -/
def siteLit : SiteConfig :=
  ⟨"Blog", "me/blog", "main", "_posts", "assets/images", "ready", "_www"⟩

/-- A concrete markdown note (slug `my-note`). -/
def fileLit : TAbstractFile :=
  ⟨"_www/ready-to-publish-scheduled/My Note.md", "My Note", some "md"⟩

/-- Note content with a title and an explicit frontmatter date. -/
def fmContent : String := "---\ntitle: T\ndate: 2020-01-01\n---\nbody"

/-- Remote outcomes for a publish that succeeds at every step. -/
def happyGit : Nat → Except String GitReply := fun i =>
  if i = 0 then Except.ok (GitReply.sha "basesha")
  else if i = 1 then Except.ok (GitReply.branch "refs/heads/publish/my-note" "basesha")
  else if i = 2 then Except.ok (GitReply.file "fsha" "fpath")
  else if i = 3 then Except.ok (GitReply.pr 7 "https://x/pull/7" "Publish: My Note")
  else Except.ok GitReply.unit

/-- Environment of a fully successful publish. -/
def envHappy : GitEnv :=
  ⟨Except.ok fmContent, Except.ok fmContent, happyGit, fun _ => Option.none⟩

/-- Environment whose validator-phase `vault.read` throws. -/
def envReadThrows : GitEnv :=
  ⟨Except.error "read failed", Except.ok fmContent, happyGit, fun _ => Option.none⟩

/- ## Claim C2: orchestrator totality -/

/-- `bind` of `GitM`, exposed for reasoning. -/
theorem gitm_bind_ok {α β : Type} {m : GitM α} {f : α → GitM β} {env : GitEnv}
    {st : Nat × List GitCall} {r : β} {st' : Nat × List GitCall}
    (h : (m >>= f) env st = (Except.ok r, st')) :
    ∃ a st1, m env st = (Except.ok a, st1) ∧ f a env st1 = (Except.ok r, st') := by
  have h' : (match m env st with
    | (Except.ok a, st1) => f a env st1
    | (Except.error e, st1) => (Except.error e, st1)) = (Except.ok r, st') := h
  rcases hm : m env st with ⟨x, st1⟩
  rw [hm] at h'
  cases x with
  | ok a => exact ⟨a, st1, rfl, h'⟩
  | error e => simp at h'

/-- `pure` of `GitM`, exposed for reasoning. -/
theorem gitm_pure_ok {α : Type} {a r : α} {env : GitEnv}
    {st st' : Nat × List GitCall}
    (h : (pure a : GitM α) env st = (Except.ok r, st')) : r = a := by
  have h' : ((Except.ok a : Except String α), st) = (Except.ok r, st') := h
  simp only [Prod.mk.injEq, Except.ok.injEq] at h'
  exact h'.1.symm

/-- A successful `publishOps` run returns the success record. -/
theorem publishOps_ok {settings : PluginSettings} {site : SiteConfig}
    {file : TAbstractFile} {immediate : Bool} {today : String} {env : GitEnv}
    {st0 st' : Nat × List GitCall} {r : PublishResult}
    (h : publishOps settings site file immediate today env st0 = (Except.ok r, st')) :
    r.success = true ∧ r.error = Option.none := by
  unfold publishOps at h
  obtain ⟨raw, st1, h1, h⟩ := gitm_bind_ok h
  simp only [] at h
  obtain ⟨b1, st2, h2, h⟩ := gitm_bind_ok h
  obtain ⟨f1, st3, h3, h⟩ := gitm_bind_ok h
  obtain ⟨u1, st4, h4, h⟩ := gitm_bind_ok h
  obtain ⟨pr, st5, h5, h⟩ := gitm_bind_ok h
  split at h
  · obtain ⟨u2, st6, h6, h⟩ := gitm_bind_ok h
    obtain ⟨u3, st7, h7, h⟩ := gitm_bind_ok h
    have := gitm_pure_ok h
    subst this
    exact ⟨rfl, rfl⟩
  · obtain ⟨u2, st6, h6, h⟩ := gitm_bind_ok h
    have := gitm_pure_ok h
    subst this
    exact ⟨rfl, rfl⟩

/-- A successful `unpublishOps` run either succeeded or carries an error. -/
theorem unpublishOps_ok {site : SiteConfig} {file : TAbstractFile}
    {deleteAssets : Bool} {env : GitEnv} {st0 st' : Nat × List GitCall}
    {r : UnpublishResult}
    (h : unpublishOps site file deleteAssets env st0 = (Except.ok r, st')) :
    r.success = false → r.error.isSome = true := by
  unfold unpublishOps at h
  obtain ⟨posts, st1, h1, h⟩ := gitm_bind_ok h
  simp only [] at h
  split at h
  · have := gitm_pure_ok h
    subst this
    intro
    rfl
  · obtain ⟨b1, st2, h2, h⟩ := gitm_bind_ok h
    obtain ⟨del, st3, h3, h⟩ := gitm_bind_ok h
    split at h
    · obtain ⟨delAll, st4, h4, h⟩ := gitm_bind_ok h
      obtain ⟨pr, st5, h5, h⟩ := gitm_bind_ok h
      obtain ⟨u1, st6, h6, h⟩ := gitm_bind_ok h
      obtain ⟨u2, st7, h7, h⟩ := gitm_bind_ok h
      have := gitm_pure_ok h
      subst this
      intro hfalse
      exact absurd hfalse (by simp)
    · obtain ⟨delAll, st4, h4, h⟩ := gitm_bind_ok h
      obtain ⟨pr, st5, h5, h⟩ := gitm_bind_ok h
      obtain ⟨u1, st6, h6, h⟩ := gitm_bind_ok h
      obtain ⟨u2, st7, h7, h⟩ := gitm_bind_ok h
      have := gitm_pure_ok h
      subst this
      intro hfalse
      exact absurd hfalse (by simp)

/-- Claim C2 as stated is false: a `vault.read` rejection during the
frontmatter-validation step — which runs OUTSIDE the try block — escapes
`publish` as an unhandled exception (`Except.error` in the model) instead of
being returned as a result object. -/
theorem c2_counterexample :
    (publish ⟨some ⟨"tok"⟩, true⟩ siteLit fileLit false "2026-02-03"
      envReadThrows).1 = Except.error "read failed" := rfl

/-- Claim C2, amended: `unpublish` always returns a result object, and
`publish` returns a result object whenever the validation-phase file read
does not throw (its try block catches everything else, the GitHub-phase read
included); a failed result always carries an error string. -/
theorem c2_totality (settings : PluginSettings) (site : SiteConfig)
    (file : TAbstractFile) (immediate deleteAssets : Bool) (today : String)
    (env : GitEnv) (c : String) (hread : env.readValidate = Except.ok c) :
    (∃ r st, publish settings site file immediate today env = (Except.ok r, st) ∧
      (r.success = false → r.error.isSome = true)) ∧
    (∃ u st, unpublish settings site file deleteAssets env = (Except.ok u, st) ∧
      (u.success = false → u.error.isSome = true)) := by
  constructor
  · unfold publish
    split
    · exact ⟨_, _, rfl, fun _ => rfl⟩
    · rw [hread]
      simp only []
      split
      · exact ⟨_, _, rfl, fun _ => rfl⟩
      · split
        · exact ⟨_, _, rfl, fun _ => rfl⟩
        · rcases hops : publishOps settings site file immediate today env (0, [])
            with ⟨x, st⟩
          cases x with
          | ok r =>
            refine ⟨r, st, rfl, ?_⟩
            intro hfalse
            exact absurd hfalse (by simp [(publishOps_ok hops).1])
          | error e => exact ⟨_, st, rfl, fun _ => rfl⟩
  · unfold unpublish
    split
    · exact ⟨_, _, rfl, fun _ => rfl⟩
    · split
      · exact ⟨_, _, rfl, fun _ => rfl⟩
      · rcases hops : unpublishOps site file deleteAssets env (0, [])
          with ⟨x, st⟩
        cases x with
        | ok u => exact ⟨u, st, rfl, unpublishOps_ok hops⟩
        | error e => exact ⟨_, st, rfl, fun _ => rfl⟩

/-- Witness for the amended C2 at the fully successful environment. -/
theorem c2_totality_witness :
    (∃ r st, publish ⟨some ⟨"tok"⟩, true⟩ siteLit fileLit false "2026-02-03"
        envHappy = (Except.ok r, st) ∧
      (r.success = false → r.error.isSome = true)) ∧
    (∃ u st, unpublish ⟨some ⟨"tok"⟩, true⟩ siteLit fileLit false envHappy =
        (Except.ok u, st) ∧
      (u.success = false → u.error.isSome = true)) :=
  c2_totality ⟨some ⟨"tok"⟩, true⟩ siteLit fileLit false false "2026-02-03"
    envHappy fmContent rfl

/- ## Claim C3: stale branches before publish/unpublish -/

/-- Is a call a branch deletion? -/
def isBranchDeletion : GitCall → Bool
  | .deleteBranch _ => true
  | _ => false

/-- Remote outcomes when the operation branch already exists: the base-sha
lookup succeeds, the ref creation conflicts (422). -/
def staleGit : Nat → Except String GitReply := fun i =>
  if i = 0 then Except.ok (GitReply.sha "basesha")
  else Except.error "GitHub API error (422): Reference already exists"

/-- Environment of a publish retried while `publish/my-note` still exists. -/
def envStale : GitEnv :=
  ⟨Except.ok fmContent, Except.ok fmContent, staleGit, fun _ => Option.none⟩

/-- Remote outcomes under which `ensureFreshBranch` deletes the stale branch
and recreates it. -/
def freshGit : Nat → Except String GitReply := fun i =>
  if i = 0 then Except.ok (GitReply.sha "stalesha")
  else if i = 1 then Except.ok GitReply.unit
  else if i = 2 then Except.ok (GitReply.sha "basesha")
  else Except.ok (GitReply.branch "refs/heads/publish/my-note" "basesha")

/-- Environment for a standalone `ensureFreshBranch` run. -/
def envFresh : GitEnv :=
  ⟨Except.ok fmContent, Except.ok fmContent, freshGit, fun _ => Option.none⟩

/-- Claim C3: `Publisher.publish` calls raw `createBranch`, not
`ensureFreshBranch`, although the latter's own documentation prescribes it
for publish/update operations.  At the failing input — a retried publish
whose `publish/my-note` branch is still on the remote — the run issues only
the base-sha lookup and the conflicting ref creation, attempts no branch
deletion anywhere, and surfaces the 422 conflict as a failure; by contrast,
`ensureFreshBranch` on the same stale remote deletes the branch before
recreating it. -/
theorem c3_stale_branch_not_deleted :
    (publish ⟨some ⟨"tok"⟩, true⟩ siteLit fileLit false "2026-02-03"
        envStale).1 =
      Except.ok ⟨false, Option.none, Option.none,
        some "GitHub API error (422): Reference already exists",
        Option.none, Option.none⟩ ∧
    (publish ⟨some ⟨"tok"⟩, true⟩ siteLit fileLit false "2026-02-03"
        envStale).2.2 =
      [GitCall.getRef "main", GitCall.createRef "publish/my-note" "basesha"] ∧
    ((publish ⟨some ⟨"tok"⟩, true⟩ siteLit fileLit false "2026-02-03"
        envStale).2.2.all (fun c => !isBranchDeletion c)) = true ∧
    (ensureFreshBranchG "publish/my-note" "main" envFresh (0, [])).2.2 =
      [GitCall.getRef "publish/my-note", GitCall.deleteBranch "publish/my-note",
       GitCall.getRef "main", GitCall.createRef "publish/my-note" "basesha"] := by
  refine ⟨rfl, by decide, by decide, by decide⟩

/- ## Claim C6: target-filename dating -/

/-- Claim C6 as stated is false: with date-prefixing enabled, a document
carrying the explicit frontmatter date `2020-01-01` is still uploaded under
TODAY's date (`2026-02-03` in this run) — the frontmatter date is never
consulted (publisher.ts lines 272–273 read only `settings.addDatePrefix` and
`getTodayDate()`). -/
theorem c6_counterexample :
    (publish ⟨some ⟨"tok"⟩, true⟩ siteLit fileLit false "2026-02-03"
        envHappy).2.2 =
      [GitCall.getRef "main",
       GitCall.createRef "publish/my-note" "basesha",
       GitCall.putFile "_posts/2026-02-03-my-note.md" fmContent
         "Add post: My Note" "publish/my-note" false Option.none,
       GitCall.createPR "Publish: My Note" "publish/my-note" "main"
         "Publishing \"My Note\" to Blog.\n\nCreated by Obsidian GitHub Web Publish plugin.",
       GitCall.addLabels 7 ["ready"]] ∧
    parseFrontmatter fmContent =
      some [("title", YamlValue.vstr "T"), ("date", YamlValue.vstr "2020-01-01")] ∧
    "2026-02-03-my-note.md" ≠ "2020-01-01-my-note.md" := by
  refine ⟨by decide, rfl, by decide⟩

/-- Claim C6, amended: when date-prefixing is enabled the uploaded filename
is `<today>-<slug>.md` where `<today>` is always the current date — an
explicit frontmatter date is ignored — and when disabled it is `<slug>.md`;
the publish flow uploads to `postsPath/targetFilename`. -/
theorem c6_target_filename_dating :
    (∀ today slug : String, today ≠ "" →
      targetFilename true today slug = today ++ "-" ++ slug ++ ".md") ∧
    (∀ today slug : String, targetFilename false today slug = slug ++ ".md") ∧
    (publish ⟨some ⟨"tok"⟩, false⟩ siteLit fileLit false "2026-02-03"
        envHappy).2.2 =
      [GitCall.getRef "main",
       GitCall.createRef "publish/my-note" "basesha",
       GitCall.putFile "_posts/my-note.md" fmContent
         "Add post: My Note" "publish/my-note" false Option.none,
       GitCall.createPR "Publish: My Note" "publish/my-note" "main"
         "Publishing \"My Note\" to Blog.\n\nCreated by Obsidian GitHub Web Publish plugin.",
       GitCall.addLabels 7 ["ready"]] := by
  refine ⟨?_, ?_, by decide⟩
  · intro today slug hne
    unfold targetFilename
    simp [hne]
  · intro today slug
    rfl

/-- Witness for the amended C6 at a concrete date and slug. -/
theorem c6_target_filename_dating_witness :
    targetFilename true "2026-02-03" "my-note" = "2026-02-03-my-note.md" :=
  c6_target_filename_dating.1 "2026-02-03" "my-note" (by decide)

/- ## Claim C7: unpublish selection -/

/-- The file being unpublished (slug `foo`). -/
def fileFoo : TAbstractFile := ⟨"_www/unpublished/foo.md", "foo", some "md"⟩

/-- Environment whose posts listing holds only `foo.txt`. -/
def envTxtListing : GitEnv :=
  ⟨Except.ok "", Except.ok "",
   (fun i => if i = 0 then
      Except.ok (GitReply.files [⟨"foo.txt", "_posts/foo.txt", "s1"⟩])
    else Except.ok GitReply.unit),
   fun _ => Option.none⟩

/-- Claim C7 as stated is false for non-`.md` entries: the selection strips
only a `.md` suffix, so `foo.txt` — whose name minus its extension is
exactly the slug `foo` — is NOT selected, and an unpublish against a listing
holding only `foo.txt` deletes nothing and fails, where the claim requires
`foo.txt` to be deleted. -/
theorem c7_counterexample :
    matchesSlugPattern "foo.txt" "foo" = false ∧
    getBasename "foo.txt" = "foo" ∧
    (unpublish ⟨some ⟨"tok"⟩, true⟩ siteLit fileFoo false envTxtListing).1 =
      Except.ok ⟨false, [],
        some "No published post found matching \"foo\" in _posts/"⟩ ∧
    (unpublish ⟨some ⟨"tok"⟩, true⟩ siteLit fileFoo false envTxtListing).2.2 =
      [GitCall.listFiles "_posts" (some "main")] := by
  refine ⟨by decide, by decide, rfl, by decide⟩

/-- Environment with the claim's example listing. -/
def envFooListing : GitEnv :=
  ⟨Except.ok "", Except.ok "",
   (fun i =>
     if i = 0 then Except.ok (GitReply.files
       [⟨"2025-01-15-foo.md", "_posts/2025-01-15-foo.md", "s1"⟩,
        ⟨"2026-02-01-foo.md", "_posts/2026-02-01-foo.md", "s2"⟩,
        ⟨"bar.md", "_posts/bar.md", "s3"⟩])
     else if i = 1 then Except.ok (GitReply.sha "basesha")
     else if i = 2 then Except.ok (GitReply.branch "refs/heads/unpublish/foo" "bsha")
     else if i = 3 then Except.ok GitReply.unit
     else if i = 4 then Except.ok GitReply.unit
     else if i = 5 then Except.ok (GitReply.pr 9 "https://x/pull/9" "Unpublish: foo")
     else Except.ok GitReply.unit),
   fun _ => Option.none⟩

/-- Environment whose posts listing holds only `bar.md`. -/
def envBarListing : GitEnv :=
  ⟨Except.ok "", Except.ok "",
   (fun i => if i = 0 then
      Except.ok (GitReply.files [⟨"bar.md", "_posts/bar.md", "s3"⟩])
    else Except.ok GitReply.unit),
   fun _ => Option.none⟩

/-- Claim C7, amended: unpublish selects exactly the entries whose name
minus a `.md` suffix equals the slug or matches `YYYY-MM-DD-<slug>`; on the
claim's example listing exactly the two `foo` entries are deleted and
`bar.md` is untouched, and with no match nothing is deleted and the failure
names the slug and the posts path. -/
theorem c7_unpublish_selection :
    (∀ name slug : String, matchesSlugPattern name slug =
      (stripMdExt name == slug || isDatePrefixed (stripMdExt name) slug)) ∧
    (unpublish ⟨some ⟨"tok"⟩, true⟩ siteLit fileFoo false envFooListing).1 =
      Except.ok ⟨true,
        ["_posts/2025-01-15-foo.md", "_posts/2026-02-01-foo.md"], Option.none⟩ ∧
    (unpublish ⟨some ⟨"tok"⟩, true⟩ siteLit fileFoo false envFooListing).2.2 =
      [GitCall.listFiles "_posts" (some "main"),
       GitCall.getRef "main",
       GitCall.createRef "unpublish/foo" "basesha",
       GitCall.deleteFile "_posts/2025-01-15-foo.md"
         "Remove post: 2025-01-15-foo.md" "unpublish/foo" "s1",
       GitCall.deleteFile "_posts/2026-02-01-foo.md"
         "Remove post: 2026-02-01-foo.md" "unpublish/foo" "s2",
       GitCall.createPR "Unpublish: foo" "unpublish/foo" "main"
         "Removing \"foo\" from Blog.\n\nDeleted files:\n- _posts/2025-01-15-foo.md\n- _posts/2026-02-01-foo.md\n\nCreated by Obsidian GitHub Web Publish plugin.",
       GitCall.mergePR 9 "Unpublish: foo",
       GitCall.deleteBranch "unpublish/foo"] ∧
    (unpublish ⟨some ⟨"tok"⟩, true⟩ siteLit fileFoo false envBarListing).1 =
      Except.ok ⟨false, [],
        some "No published post found matching \"foo\" in _posts/"⟩ ∧
    (unpublish ⟨some ⟨"tok"⟩, true⟩ siteLit fileFoo false envBarListing).2.2 =
      [GitCall.listFiles "_posts" (some "main")] := by
  refine ⟨fun name slug => rfl, rfl, by decide, rfl, by decide⟩
